import Mathlib

/-!
# ERP student records: course index, grade queries and sort views

A shallow embedding of `student.h`, `erp_types.h`, `course_index.h`,
`sorting.h` and `csv_loader.h`.

* `std::string` is a Lean `String`; `operator<` on `std::string` compares
  bytes lexicographically, which on UTF-8 text is the lexicographic order of
  the character sequences (`strLt`).
* `int` values (grades, thresholds, integer course codes) are `Int`; the code
  only compares them, so no wrap-around arises.  `unsigned int` is `Nat`.
* `std::vector` is `List`; `std::unique_ptr<IStudent>` is `Option IStudent`
  (`none` is the null pointer).
* A non-owning `IStudent*` taken from slot `i` of the collection is the
  position `i`: every non-null slot owns a distinct object, so positions and
  pointers identify the same records.
* The callback given to `forEachPastCourse` mutates the index; it is a state
  transformer threaded through the traversal.
-/

namespace ERP

/-! ## student.h -/

/-- Decimal text of an `int` as written by `operator<<` on a stream. -/
def intToString : Int → String
  | Int.ofNat n => Nat.repr n
  | Int.negSucc n => "-" ++ Nat.repr (n + 1)

/-- The overload set `toStringGeneric`: identity on `std::string`, stream
output for the numeric types. -/
class ToStringGeneric (T : Type) where
  /-- Text rendering of a value. -/
  toStringGeneric : T → String

export ToStringGeneric (toStringGeneric)

instance instToStringGenericString : ToStringGeneric String :=
  ⟨fun value => value⟩

instance instToStringGenericNat : ToStringGeneric Nat :=
  ⟨fun value => Nat.repr value⟩

instance instToStringGenericInt : ToStringGeneric Int :=
  ⟨fun value => intToString value⟩

/-- The nested `struct PastCourse { CourseCodeT code; int grade; }`. -/
structure PastCourse (CourseCodeT : Type) where
  code : CourseCodeT
  grade : Int
  deriving DecidableEq, Repr

/-- The private data of `Student<RollT, CourseCodeT>`. -/
structure Student (RollT CourseCodeT : Type) where
  name : String
  roll : RollT
  branch : String
  startingYear : Nat
  currentCourses : List CourseCodeT
  pastCourses : List (PastCourse CourseCodeT)
  deriving DecidableEq, Repr

namespace Student

variable {RollT CourseCodeT : Type}

/-- The constructor: both course vectors start empty. -/
def new (name : String) (roll : RollT) (branch : String) (startingYear : Nat) :
    Student RollT CourseCodeT :=
  { name := name, roll := roll, branch := branch, startingYear := startingYear,
    currentCourses := [], pastCourses := [] }

/-- The mutator `addCurrentCourse`: `push_back`. -/
def addCurrentCourse (s : Student RollT CourseCodeT) (course : CourseCodeT) :
    Student RollT CourseCodeT :=
  { s with currentCourses := s.currentCourses ++ [course] }

/-- The mutator `addPastCourse`: `push_back(PastCourse{course, grade})`. -/
def addPastCourse (s : Student RollT CourseCodeT) (course : CourseCodeT) (grade : Int) :
    Student RollT CourseCodeT :=
  { s with pastCourses := s.pastCourses ++ [{ code := course, grade := grade }] }

/-- Accessor `getNameStr`. -/
def getNameStr (s : Student RollT CourseCodeT) : String := s.name

/-- Accessor `getRollStr`: `toStringGeneric(roll)`. -/
def getRollStr [ToStringGeneric RollT] (s : Student RollT CourseCodeT) : String :=
  toStringGeneric s.roll

/-- Accessor `getBranchStr`. -/
def getBranchStr (s : Student RollT CourseCodeT) : String := s.branch

/-- Accessor `getStartingYear`. -/
def getStartingYear (s : Student RollT CourseCodeT) : Nat := s.startingYear

/-- The traversal `forEachPastCourse(f)`: `f` is called on every past course
in vector order with the text of the code and the grade; `st` is the state
the callback acts on. -/
def forEachPastCourse [ToStringGeneric CourseCodeT] {σ : Type}
    (s : Student RollT CourseCodeT) (f : σ → String → Int → σ) (st : σ) : σ :=
  s.pastCourses.foldl (fun acc pc => f acc (toStringGeneric pc.code) pc.grade) st

/-- The loop of `hasGradeAtLeast`: returns at the first matching entry. -/
def hasGradeLoop [ToStringGeneric CourseCodeT] (course : String) (threshold : Int) :
    List (PastCourse CourseCodeT) → Bool
  | [] => false
  | pc :: rest =>
    if toStringGeneric pc.code = course ∧ pc.grade ≥ threshold then true
    else hasGradeLoop course threshold rest

/-- The query `hasGradeAtLeast(course, threshold)`. -/
def hasGradeAtLeast [ToStringGeneric CourseCodeT] (s : Student RollT CourseCodeT)
    (course : String) (threshold : Int) : Bool :=
  let threshold := if threshold < 0 then 0 else threshold
  hasGradeLoop course threshold s.pastCourses

end Student

/-! ## erp_types.h -/

/-- Alias `IIITStudent = Student<std::string, std::string>`. -/
abbrev IIITStudent := Student String String

/-- Alias `IITStudent = Student<unsigned int, int>`. -/
abbrev IITStudent := Student Nat Int

/-- The interface `IStudent` with its two implementations. -/
inductive IStudent where
  | iiit (s : IIITStudent)
  | iit (s : IITStudent)
  deriving DecidableEq, Repr

/-- Alias `IStudentPtr = std::unique_ptr<IStudent>`; `none` is null. -/
abbrev IStudentPtr := Option IStudent

namespace IStudent

/-- Virtual `getNameStr`. -/
def getNameStr : IStudent → String
  | iiit s => s.getNameStr
  | iit s => s.getNameStr

/-- Virtual `getRollStr`. -/
def getRollStr : IStudent → String
  | iiit s => s.getRollStr
  | iit s => s.getRollStr

/-- Virtual `getBranchStr`. -/
def getBranchStr : IStudent → String
  | iiit s => s.getBranchStr
  | iit s => s.getBranchStr

/-- Virtual `getStartingYear`. -/
def getStartingYear : IStudent → Nat
  | iiit s => s.getStartingYear
  | iit s => s.getStartingYear

/-- Virtual `forEachPastCourse`. -/
def forEachPastCourse {σ : Type} : IStudent → (σ → String → Int → σ) → σ → σ
  | iiit s, f, st => s.forEachPastCourse f st
  | iit s, f, st => s.forEachPastCourse f st

/-- Virtual `hasGradeAtLeast`. -/
def hasGradeAtLeast : IStudent → String → Int → Bool
  | iiit s, course, threshold => s.hasGradeAtLeast course threshold
  | iit s, course, threshold => s.hasGradeAtLeast course threshold

/-- The stored past-course entries with the course code rendered as text. -/
def pastEntries : IStudent → List (String × Int)
  | iiit s => s.pastCourses.map fun pc => (toStringGeneric pc.code, pc.grade)
  | iit s => s.pastCourses.map fun pc => (toStringGeneric pc.code, pc.grade)

/-- The pairs `(courseText, grade)` that `forEachPastCourse` visits, in
visiting order (the traversal run with a callback that records its
arguments). -/
def visited (s : IStudent) : List (String × Int) :=
  s.forEachPastCourse (fun acc course grade => acc ++ [(course, grade)]) []

end IStudent

/-! ## course_index.h -/

/-- A non-owning `IStudent*` into the collection: the slot position. -/
abbrev StudentRef := Nat

/-- The `struct CourseIndex`: `grades` is the `std::array` of 11 vectors. -/
structure CourseIndex where
  grades : List (List StudentRef)
  deriving DecidableEq, Repr

namespace CourseIndex

/-- A value-initialised `CourseIndex`: eleven empty buckets. -/
def empty : CourseIndex := ⟨List.replicate 11 []⟩

/-- The read `ci.grades[g]`. -/
def bucket (ci : CourseIndex) (g : Nat) : List StudentRef := ci.grades.getD g []

/-- The write `ci.grades[g].push_back(s)`. -/
def pushBack (ci : CourseIndex) (g : Nat) (s : StudentRef) : CourseIndex :=
  ⟨ci.grades.modify (fun b => b ++ [s]) g⟩

end CourseIndex

/-- The member `std::unordered_map<std::string, CourseIndex>`, as an
association list with at most one entry per key. -/
abbrev CourseMap := List (String × CourseIndex)

/-- The lookup `index_.find(course)`; `none` is `index_.end()`. -/
def CourseMap.find : CourseMap → String → Option CourseIndex
  | [], _ => none
  | (k, v) :: rest, course => if k = course then some v else CourseMap.find rest course

/-- The access `index_[course]` followed by the update `f` of the referenced
entry; a missing entry is created value-initialised first. -/
def CourseMap.update : CourseMap → String → (CourseIndex → CourseIndex) → CourseMap
  | [], course, f => [(course, f CourseIndex.empty)]
  | (k, v) :: rest, course, f =>
    if k = course then (k, f v) :: rest else (k, v) :: CourseMap.update rest course f

/-- Bucket `g` of the entry of `course`; empty when there is no entry. -/
def CourseMap.bucket (m : CourseMap) (course : String) (g : Nat) : List StudentRef :=
  match m.find course with
  | none => []
  | some ci => ci.bucket g

/-- Every entry of the map holds exactly eleven buckets. -/
def CourseMap.WF (m : CourseMap) : Prop :=
  ∀ c ci, m.find c = some ci → ci.grades.length = 11

/-- The class `CourseIndexDB`. -/
structure CourseIndexDB where
  index_ : CourseMap
  deriving DecidableEq, Repr

namespace CourseIndexDB

/-- A default-constructed database, on which `build` was never called. -/
def fresh : CourseIndexDB := ⟨[]⟩

/-- The call `index_.clear()`. -/
def clear (_db : CourseIndexDB) : CourseIndexDB := ⟨[]⟩

/-- The lambda of `build` for the record held in slot `s`. -/
def buildVisit (s : StudentRef) (index_ : CourseMap) (course : String) (grade : Int) :
    CourseMap :=
  if grade < 0 ∨ grade > 10 then index_
  else CourseMap.update index_ course (fun ci => ci.pushBack grade.toNat s)

/-- The `for (const auto& uptr : students)` loop of `build`; `i` is the
position of the head of the remaining slots. -/
def buildLoop : Nat → CourseMap → List IStudentPtr → CourseMap
  | _, index_, [] => index_
  | i, index_, none :: rest => buildLoop (i + 1) index_ rest
  | i, index_, some s :: rest =>
    buildLoop (i + 1) (s.forEachPastCourse (buildVisit i) index_) rest

/-- The method `build(students)`. -/
def build (db : CourseIndexDB) (students : List IStudentPtr) : CourseIndexDB :=
  let db := db.clear
  ⟨buildLoop 0 db.index_ students⟩

/-- The method `queryAtLeast(course, threshold)`. -/
def queryAtLeast (db : CourseIndexDB) (course : String) (threshold : Int) :
    List StudentRef :=
  match db.index_.find course with
  | none => []
  | some ci =>
    let t := max threshold 0
    let t := min t 10
    (List.range' t.toNat (11 - t.toNat)).foldl (fun result g => result ++ ci.bucket g) []

/-- Bucket `g` of course `course`, empty when the course has no entry. -/
def bucketOf (db : CourseIndexDB) (course : String) (g : Nat) : List StudentRef :=
  db.index_.bucket course g

end CourseIndexDB

/-! ## sorting.h -/

/-- The comparison `operator<` of two `std::string`s: lexicographic on the
character sequences. -/
def strLt (a b : String) : Bool := decide (a.toList < b.toList)

/-- One insertion step of the sorting model: `x` goes before the first
element that `comp` places after it. -/
def insertSorted (comp : Nat → Nat → Bool) (x : Nat) : List Nat → List Nat
  | [] => [x]
  | y :: ys => if comp x y then x :: y :: ys else y :: insertSorted comp x ys

/-- The library call `std::sort(first, last, comp)`.  The standard library is
not part of the repository; it is modelled by insertion sort, the algorithm
`std::sort` itself runs on short ranges.  `std::sort` is specified only when
`comp` is a strict weak ordering on the range (`StrictWeakOrderOn`), and then
up to the order of equivalent elements; the model stands for it under that
condition only, and the results on sort views are stated for collections
that meet it and for instances whose keys are pairwise different. -/
def stdSort (comp : Nat → Nat → Bool) : List Nat → List Nat
  | [] => []
  | x :: xs => insertSorted comp x (stdSort comp xs)

/-- The `struct SortViews`. -/
structure SortViews where
  byName : List Nat
  byRoll : List Nat
  byNameList : List Nat
  deriving DecidableEq, Repr

/-- The slot `students[a]`. -/
def slot (students : List IStudentPtr) (a : Nat) : IStudentPtr := students.getD a none

/-- The comparator of the by-name sort. -/
def compByName (students : List IStudentPtr) (a b : Nat) : Bool :=
  match slot students a, slot students b with
  | some sa, some sb => strLt sa.getNameStr sb.getNameStr
  | _, _ => decide (a < b)

/-- The comparator of the by-roll sort. -/
def compByRoll (students : List IStudentPtr) (a b : Nat) : Bool :=
  match slot students a, slot students b with
  | some sa, some sb => strLt sa.getRollStr sb.getRollStr
  | _, _ => decide (a < b)

/-- The function `buildAndSortViews`.  Each of the two sort tasks reads
`students` and writes its own vector, so their effects commute and they are
run here one after the other. -/
def buildAndSortViews (students : List IStudentPtr) : SortViews :=
  let n := students.length
  let byName := List.range n
  let byRoll := List.range n
  let byName := stdSort (compByName students) byName
  let byRoll := stdSort (compByRoll students) byRoll
  { byName := byName, byRoll := byRoll, byNameList := byName }

/-! ## csv_loader.h

A function that throws returns `none`.  `unsigned long` is 64 bits wide and
`int`, `unsigned int` are 32 bits wide. -/

/-- The loop `while (std::getline(ss, item, delim)) parts.push_back(item)` of
`splitString`, one character at a time; `cur` holds the characters of the
item being read, last one first.  A `getline` call ends at `delim` (consumed)
or at the end of the stream; it fails, which ends the loop, when the stream
is at its end and no character was extracted. -/
def splitLoop (delim : Char) : List Char → List Char → List String
  | [], cur => if cur = [] then [] else [String.mk cur.reverse]
  | c :: cs, cur =>
    if c = delim then String.mk cur.reverse :: splitLoop delim cs []
    else splitLoop delim cs (c :: cur)

/-- The function `splitString(s, delim)`. -/
def splitString (s : String) (delim : Char) : List String :=
  splitLoop delim s.toList []

/-- Membership in the set `" \t\r\n"` that `trim` strips. -/
def isTrimChar (c : Char) : Bool :=
  c = ' ' || c = Char.ofNat 9 || c = Char.ofNat 13 || c = Char.ofNat 10

/-- The function `trim(s)`: the text from the first to the last character
outside `" \t\r\n"`, empty when there is none. -/
def trim (s : String) : String :=
  String.mk ((s.toList.dropWhile isTrimChar).reverse.dropWhile isTrimChar).reverse

/-- The white space that `strtol` and `strtoul` skip (`isspace`). -/
def isSpaceChar (c : Char) : Bool :=
  c = ' ' || (9 ≤ c.toNat && c.toNat ≤ 13)

/-- The value of the longest run of decimal digits at the head of the text,
started from `acc`; `seen` tells whether a digit was already read.  The
result is `none` when there is no digit at all. -/
def scanDigits : List Char → Nat → Bool → Option Nat
  | [], acc, seen => if seen then some acc else none
  | c :: cs, acc, seen =>
    if c.isDigit then scanDigits cs (10 * acc + (c.toNat - 48)) true
    else if seen then some acc else none

/-- The subject sequence of `strtol` / `strtoul` in base 10: white space is
skipped, then an optional sign, then digits; text after the digits is
ignored.  The result is the sign (`true` for minus) and the magnitude, or
`none` when no conversion can be performed. -/
def scanInteger (s : String) : Option (Bool × Nat) :=
  match s.toList.dropWhile isSpaceChar with
  | [] => none
  | c :: cs =>
    if c = '-' then (scanDigits cs 0 false).map fun m => (true, m)
    else if c = '+' then (scanDigits cs 0 false).map fun m => (false, m)
    else (scanDigits (c :: cs) 0 false).map fun m => (false, m)

/-- The call `std::stoi(str)`: `none` stands for `std::invalid_argument` (no
conversion) and for `std::out_of_range` (value outside `int`). -/
def stoi (s : String) : Option Int :=
  match scanInteger s with
  | none => none
  | some (neg, m) =>
    let v : Int := if neg then -(m : Int) else (m : Int)
    if -2147483648 ≤ v ∧ v ≤ 2147483647 then some v else none

/-- The call `std::stoul(str)`: `none` stands for `std::invalid_argument` and
for `std::out_of_range` (magnitude above `ULONG_MAX`); a minus sign negates
the magnitude in `unsigned long` arithmetic. -/
def stoul (s : String) : Option Nat :=
  match scanInteger s with
  | none => none
  | some (neg, m) =>
    if m ≥ 2 ^ 64 then none
    else some (if neg then (2 ^ 64 - m) % 2 ^ 64 else m)

/-- The conversion `static_cast<unsigned int>(std::stoul(str))`. -/
def stoulAsUInt (s : String) : Option Nat :=
  (stoul s).map fun v => v % 2 ^ 32

/-- The current-courses loop of the IIIT branch. -/
def addCurrentIIIT (stu : IIITStudent) : List String → IIITStudent
  | [] => stu
  | t :: rest =>
    let courseCode := trim t
    if courseCode ≠ "" then addCurrentIIIT (stu.addCurrentCourse courseCode) rest
    else addCurrentIIIT stu rest

/-- The past-courses loop of the IIIT branch. -/
def addPastIIIT (stu : IIITStudent) : List String → IIITStudent
  | [] => stu
  | token :: rest =>
    let entry := trim token
    if entry = "" then addPastIIIT stu rest
    else
      match splitString entry ':' with
      | [cg0, cg1] =>
        let courseCode := trim cg0
        let gradeStr := trim cg1
        if courseCode = "" then addPastIIIT stu rest
        else
          match stoi gradeStr with
          | none => addPastIIIT stu rest
          | some grade => addPastIIIT (stu.addPastCourse courseCode grade) rest
      | _ => addPastIIIT stu rest

/-- The current-courses loop of the IIT branch. -/
def addCurrentIIT (stu : IITStudent) : List String → IITStudent
  | [] => stu
  | t :: rest =>
    let courseStr := trim t
    if courseStr = "" then addCurrentIIT stu rest
    else
      match stoi courseStr with
      | some courseCode => addCurrentIIT (stu.addCurrentCourse courseCode) rest
      | none => addCurrentIIT stu rest

/-- The past-courses loop of the IIT branch. -/
def addPastIIT (stu : IITStudent) : List String → IITStudent
  | [] => stu
  | token :: rest =>
    let entry := trim token
    if entry = "" then addPastIIT stu rest
    else
      match splitString entry ':' with
      | [cg0, cg1] =>
        let courseStr := trim cg0
        let gradeStr := trim cg1
        if courseStr = "" then addPastIIT stu rest
        else
          match stoi courseStr with
          | none => addPastIIT stu rest
          | some courseCode =>
            match stoi gradeStr with
            | none => addPastIIT stu rest
            | some grade => addPastIIT (stu.addPastCourse courseCode grade) rest
      | _ => addPastIIT stu rest

/-- The function `parseStudentRecord(cols)`; `none` when it throws. -/
def parseStudentRecord (cols : List String) : Option IStudent :=
  match cols with
  | c0 :: c1 :: c2 :: c3 :: c4 :: c5 :: c6 :: _ =>
    let institute := trim c0
    let name := trim c1
    let rollStr := trim c2
    let branch := trim c3
    let yearStr := trim c4
    let currentStr := trim c5
    let pastStr := trim c6
    match stoulAsUInt yearStr with
    | none => none
    | some startingYear =>
      if institute = "IIIT" then
        let stu : IIITStudent := Student.new name rollStr branch startingYear
        let stu := if currentStr ≠ "" then addCurrentIIIT stu (splitString currentStr ';')
          else stu
        let stu := if pastStr ≠ "" then addPastIIIT stu (splitString pastStr ';') else stu
        some (IStudent.iiit stu)
      else if institute = "IIT" then
        match stoulAsUInt rollStr with
        | none => none
        | some rollNum =>
          let stu : IITStudent := Student.new name rollNum branch startingYear
          let stu := if currentStr ≠ "" then addCurrentIIT stu (splitString currentStr ';')
            else stu
          let stu := if pastStr ≠ "" then addPastIIT stu (splitString pastStr ';') else stu
          some (IStudent.iit stu)
      else none
  | _ => none

/-- The `while (std::getline(fin, line))` loop of `loadStudentsFromCSV` over
the lines that follow the header. -/
def loadLoop : List String → List IStudentPtr → List IStudentPtr
  | [], students => students
  | line :: rest, students =>
    if line = "" then loadLoop rest students
    else
      match parseStudentRecord (splitString line ',') with
      | some ptr => loadLoop rest (students ++ [some ptr])
      | none => loadLoop rest students

/-- The function `loadStudentsFromCSV`.  The file is given by its lines, the
successive results of `std::getline(fin, line)`; `none` as argument is a file
that cannot be opened, `none` as result is the exception thrown then. -/
def loadStudentsFromCSV (file : Option (List String)) : Option (List IStudentPtr) :=
  match file with
  | none => none
  | some [] => some []
  | some (_ :: lines) => some (loadLoop lines [])

/-! ## Specification-level notions -/

/-- No slot of the collection is null. -/
def noAbsentSlot (students : List IStudentPtr) : Prop := ∀ p ∈ students, p ≠ none

instance instDecidableNoAbsentSlot (students : List IStudentPtr) :
    Decidable (noAbsentSlot students) := by
  unfold noAbsentSlot; infer_instance

/-- The requirement of `std::sort` on its comparator, on the indices below
`n`: `comp` is irreflexive and transitive, and being unordered both ways is
transitive. -/
def StrictWeakOrderOn (comp : Nat → Nat → Bool) (n : Nat) : Prop :=
  (∀ a, a < n → comp a a = false) ∧
    (∀ a b c, a < n → b < n → c < n → comp a b = true → comp b c = true → comp a c = true) ∧
    (∀ a b c, a < n → b < n → c < n → comp a b = false → comp b a = false →
      comp b c = false → comp c b = false → comp a c = false ∧ comp c a = false)

/-- Display name of the record in slot `i` (empty text for a null slot). -/
def nameAt (students : List IStudentPtr) (i : Nat) : String :=
  match slot students i with
  | some s => s.getNameStr
  | none => ""

/-- Roll text of the record in slot `i` (empty text for a null slot). -/
def rollAt (students : List IStudentPtr) (i : Nat) : String :=
  match slot students i with
  | some s => s.getRollStr
  | none => ""

/-- The references one slot contributes to bucket `g` of course `c`: its
own position, once per entry `(c, g)` that the traversal visits. -/
def slotRefs (c : String) (g : Int) (ip : Nat × IStudentPtr) : List StudentRef :=
  match ip.2 with
  | none => []
  | some s => (s.visited.filter fun e => e = (c, g)).map fun _ => ip.1

/-- Bucket `g` of course `c` as the specification words it: the records
having a past-course entry `(c, g)`, in collection order, once per such
entry in the order the entries were added. -/
def bucketSpec (students : List IStudentPtr) (c : String) (g : Int) : List StudentRef :=
  students.enum.flatMap (slotRefs c g)

/-- The records `r` of the collection with `r.hasGradeAtLeast(c, t)`, in
collection order. -/
def recordsWithGradeAtLeast (students : List IStudentPtr) (c : String) (t : Int) :
    List StudentRef :=
  (students.enum.filter fun ip =>
    match ip.2 with
    | none => false
    | some s => s.hasGradeAtLeast c t).map Prod.fst

/-- No record of the collection stores a past-course grade above 10. -/
def gradesAtMostTen (students : List IStudentPtr) : Bool :=
  students.all fun p =>
    match p with
    | none => true
    | some s => s.pastEntries.all fun e => decide (e.2 ≤ 10)

/-- Some record of the collection holds a past-course entry for `c` with a
grade in 0..10. -/
def courseKnown (students : List IStudentPtr) (c : String) : Bool :=
  students.any fun p =>
    match p with
    | none => false
    | some s => s.pastEntries.any fun e => decide (e.1 = c ∧ 0 ≤ e.2 ∧ e.2 ≤ 10)

/-- Record `i` of the collection holds a past-course entry `(c, g)`. -/
def hasEntry (students : List IStudentPtr) (i : StudentRef) (c : String) (g : Int) : Prop :=
  ∃ s, students[i]? = some (some s) ∧ (c, g) ∈ s.pastEntries

/-- The bucket positions `clamp(t) .. 10` that `queryAtLeast` walks. -/
def bucketRange (t : Int) : List Nat :=
  List.range' (min (max t 0) 10).toNat (11 - (min (max t 0) 10).toNat)

/-- The threshold after `std::max(threshold, 0)` and `std::min(t, 10)`. -/
def clampThreshold (t : Int) : Int := min (max t 0) 10

/-- Scenario A of the specification: Bob (roll "2", X:9), Ann (roll "1", X:7). -/
def scenarioA : List IStudentPtr :=
  [ some (.iiit ((Student.new "Bob" "2" "CSE" 2025).addPastCourse "X" 9)),
    some (.iiit ((Student.new "Ann" "1" "CSE" 2025).addPastCourse "X" 7)) ]

/-- Two integer-roll records with rolls 9 and 10. -/
def rolls9and10 : List IStudentPtr :=
  [ some (.iit (Student.new "P" 9 "EE" 2024)),
    some (.iit (Student.new "Q" 10 "EE" 2024)) ]

/-- Two integer-roll records with rolls 10 and 9, in that order. -/
def rolls10and9 : List IStudentPtr :=
  [ some (.iit (Student.new "Q" 10 "EE" 2024)),
    some (.iit (Student.new "P" 9 "EE" 2024)) ]

/-- Three text-roll records with rolls "b", "c", "a", and one integer-roll
record with roll 100. -/
def mixedRolls : List IStudentPtr :=
  [ some (.iiit (Student.new "R" "b" "CSE" 2025)),
    some (.iiit (Student.new "S" "c" "CSE" 2025)),
    some (.iiit (Student.new "T" "a" "CSE" 2025)),
    some (.iit (Student.new "U" 100 "EE" 2024)) ]

/-- One record holding grade 10 in course X. -/
def oneTen : List IStudentPtr :=
  [ some (.iiit ((Student.new "Cy" "7" "CSE" 2025).addPastCourse "X" 10)) ]

/-- One record holding the stored grade 15 in course X. -/
def oneFifteen : List IStudentPtr :=
  [ some (.iiit ((Student.new "Di" "8" "CSE" 2025).addPastCourse "X" 15)) ]

/-- The record with every past-course entry of grade below 0 or above 10
deleted. -/
def IStudent.dropOutOfRange : IStudent → IStudent
  | .iiit s =>
    .iiit { s with pastCourses := s.pastCourses.filter fun pc => 0 ≤ pc.grade ∧ pc.grade ≤ 10 }
  | .iit s =>
    .iit { s with pastCourses := s.pastCourses.filter fun pc => 0 ≤ pc.grade ∧ pc.grade ≤ 10 }

/-- No record holds two past-course entries for one course with different
grades in 0..10. -/
def oneGradePerCourse (students : List IStudentPtr) : Bool :=
  students.all fun p =>
    match p with
    | none => true
    | some s =>
      s.pastEntries.all fun e1 =>
        s.pastEntries.all fun e2 =>
          decide (e1.1 = e2.1 ∧ 0 ≤ e1.2 ∧ e1.2 ≤ 10 ∧ 0 ≤ e2.2 ∧ e2.2 ≤ 10 → e1.2 = e2.2)

/-- What a non-empty source line contributes to the loaded collection. -/
def lineRecord (line : String) : Option IStudentPtr :=
  if line = "" then none else (parseStudentRecord (splitString line ',')).map some

/-- The trimmed institute tag of a row (empty text for a row without
fields). -/
def instituteOf (cols : List String) : String := trim (cols.headD "")

/-- The parts of a text between the occurrences of `delim`: a text with `n`
delimiters has `n + 1` parts, empty ones included. -/
def partsBetween (delim : Char) : List Char → List (List Char)
  | [] => [[]]
  | c :: cs =>
    if c = delim then [] :: partsBetween delim cs
    else
      match partsBetween delim cs with
      | [] => [[c]]
      | part :: parts => (c :: part) :: parts

/-- A text without the white space at its two ends. -/
def stripped (cs : List Char) : List Char :=
  (cs.dropWhile Char.isWhitespace).rdropWhile Char.isWhitespace

/-- The number written by a text of decimal digits; `none` when the text is
empty or holds another character. -/
def digitsValue (cs : List Char) : Option Nat :=
  if cs ≠ [] ∧ cs.all Char.isDigit then
    some (cs.foldl (fun acc c => 10 * acc + (c.toNat - 48)) 0)
  else none

/-- The integer written by a text: an optional sign, then decimal digits and
nothing else, with a value that an `int` holds; `none` for any other text. -/
def integerText (cs : List Char) : Option Int :=
  let signed : Option Int :=
    match cs with
    | '-' :: ds => (digitsValue ds).map fun m => -(m : Int)
    | '+' :: ds => (digitsValue ds).map fun m => (m : Int)
    | ds => (digitsValue ds).map fun m => (m : Int)
  signed.bind fun v => if -2147483648 ≤ v ∧ v ≤ 2147483647 then some v else none

/-- A well-formed past-course sub-entry in the words of the specification:
after trimming, the sub-entry splits on `:` into exactly two parts, the
course part is not empty and the grade part is integer text; for the integer
variant (`intCourse`) the course part is integer text too.  The value is the
entry it stands for, with the course code rendered as text.  Nothing here
goes through the parser's own helpers. -/
def wellFormedEntry (intCourse : Bool) (token : List Char) : Option (String × Int) :=
  match partsBetween ':' (stripped token) with
  | [coursePart, gradePart] =>
    if stripped coursePart = [] then none
    else
      match integerText (stripped gradePart) with
      | none => none
      | some grade =>
        if intCourse then
          (integerText (stripped coursePart)).map fun code => (intToString code, grade)
        else some (String.mk (stripped coursePart), grade)
  | _ => none

/-- The well-formed sub-entries of a past-courses field, in field order. -/
def wellFormedEntries (intCourse : Bool) (field : String) : List (String × Int) :=
  (partsBetween ';' field.toList).filterMap (wellFormedEntry intCourse)

/-- One record holding X:7 and X:9. -/
def twoGrades : List IStudentPtr :=
  [ some (.iiit (((Student.new "Ed" "3" "CSE" 2025).addPastCourse "X" 7).addPastCourse "X" 9)) ]

/-- One record holding the stored entries X:15 and Y:8. -/
def fifteenAndEight : List IStudentPtr :=
  [ some (.iiit (((Student.new "Di" "8" "CSE" 2025).addPastCourse "X" 15).addPastCourse "Y" 8)) ]

/-- A collection with a null slot between a record named "b" and a record
named "a". -/
def nullMiddle : List IStudentPtr :=
  [ some (.iiit (Student.new "b" "1" "CSE" 2025)), none,
    some (.iiit (Student.new "a" "2" "CSE" 2025)) ]

/-! ## course_index.h with checked array access

The same code with every access `ci.grades[g]` checked against the bounds of
the array: `none` is an access outside it. -/

/-- The read `ci.grades[g]` for an `int` position, defined only inside the
array. -/
def CourseIndex.bucketChecked (ci : CourseIndex) (g : Int) : Option (List StudentRef) :=
  if g < 0 then none else ci.grades[g.toNat]?

/-- The write `ci.grades[g].push_back(s)` for an `int` position, defined
only inside the array. -/
def CourseIndex.pushBackChecked (ci : CourseIndex) (g : Int) (s : StudentRef) :
    Option CourseIndex :=
  if g < 0 then none
  else if g.toNat < ci.grades.length then some (ci.pushBack g.toNat s) else none

/-- The lambda of `build` with checked access. -/
def CourseIndexDB.buildVisitChecked (s : StudentRef) (index_ : CourseMap) (course : String)
    (grade : Int) : Option CourseMap :=
  if grade < 0 ∨ grade > 10 then some index_
  else
    let ci := (index_.find course).getD CourseIndex.empty
    (ci.pushBackChecked grade s).map fun ci1 => index_.update course fun _ => ci1

/-- The loop of `build` with checked access; a failed access ends the run. -/
def CourseIndexDB.buildLoopChecked : Nat → Option CourseMap → List IStudentPtr → Option CourseMap
  | _, index_, [] => index_
  | i, index_, none :: rest => CourseIndexDB.buildLoopChecked (i + 1) index_ rest
  | i, index_, some s :: rest =>
    CourseIndexDB.buildLoopChecked (i + 1)
      (s.forEachPastCourse
        (fun acc course grade =>
          acc.bind fun m => CourseIndexDB.buildVisitChecked i m course grade)
        index_)
      rest

/-- The method `build(students)` with checked access. -/
def CourseIndexDB.buildChecked (db : CourseIndexDB) (students : List IStudentPtr) :
    Option CourseIndexDB :=
  let db := db.clear
  (CourseIndexDB.buildLoopChecked 0 (some db.index_) students).map fun m => ⟨m⟩

/-- The method `queryAtLeast(course, threshold)` with checked access. -/
def CourseIndexDB.queryAtLeastChecked (db : CourseIndexDB) (course : String)
    (threshold : Int) : Option (List StudentRef) :=
  match db.index_.find course with
  | none => some []
  | some ci =>
    let t := max threshold 0
    let t := min t 10
    (List.range' t.toNat (11 - t.toNat)).foldl
      (fun (result : Option (List StudentRef)) (g : Nat) =>
        result.bind fun r => (ci.bucketChecked (Int.ofNat g)).map fun b => r ++ b)
      (some [])

/-- A collection with a null slot and stored grades -4, 0, 10 and 99. -/
def wildGrades : List IStudentPtr :=
  [ some (.iiit (((Student.new "Fy" "4" "CSE" 2025).addPastCourse "X" (-4)).addPastCourse
      "X" 10)),
    none,
    some (.iit (((Student.new "Gu" 5 "EE" 2024).addPastCourse 7 99).addPastCourse 7 0)) ]

/-! ## Records: traversal and grade test -/

theorem foldl_record {α β : Type} (f : α → β) (l : List α) (init : List β) :
    l.foldl (fun acc x => acc ++ [f x]) init = init ++ l.map f := by
  induction l generalizing init with
  | nil => simp
  | cons x xs ih => simp [ih]

theorem IStudent.visited_eq_pastEntries (s : IStudent) : s.visited = s.pastEntries := by
  cases s <;>
    simp [IStudent.visited, IStudent.forEachPastCourse, Student.forEachPastCourse,
      IStudent.pastEntries, foldl_record]

theorem IStudent.forEachPastCourse_eq_foldl {σ : Type} (s : IStudent)
    (f : σ → String → Int → σ) (st : σ) :
    s.forEachPastCourse f st = s.pastEntries.foldl (fun acc e => f acc e.1 e.2) st := by
  cases s <;>
    simp [IStudent.forEachPastCourse, Student.forEachPastCourse, IStudent.pastEntries,
      List.foldl_map]

theorem Student.hasGradeLoop_iff {C : Type} [ToStringGeneric C] (course : String)
    (th : Int) (l : List (PastCourse C)) :
    Student.hasGradeLoop course th l = true ↔
      ∃ pc ∈ l, toStringGeneric pc.code = course ∧ th ≤ pc.grade := by
  induction l with
  | nil => simp [Student.hasGradeLoop]
  | cons pc rest ih =>
    by_cases h : toStringGeneric pc.code = course ∧ pc.grade ≥ th
    · simp only [Student.hasGradeLoop, h, and_self, if_true, true_iff]
      exact ⟨pc, List.mem_cons_self _ _, h.1, h.2⟩
    · rw [Student.hasGradeLoop, if_neg h, ih]
      constructor
      · rintro ⟨q, hq, hq2⟩
        exact ⟨q, List.mem_cons_of_mem _ hq, hq2⟩
      · rintro ⟨q, hq, hq2⟩
        rcases List.mem_cons.1 hq with rfl | hq
        · exact absurd hq2 h
        · exact ⟨q, hq, hq2⟩

theorem IStudent.hasGradeAtLeast_iff_entries (s : IStudent) (c : String) (t : Int) :
    s.hasGradeAtLeast c t = true ↔ ∃ e ∈ s.pastEntries, e.1 = c ∧ max t 0 ≤ e.2 := by
  have hmax : (if t < 0 then 0 else t) = max t 0 := by
    split_ifs with h
    · exact (max_eq_right (le_of_lt h)).symm
    · exact (max_eq_left (not_lt.1 h)).symm
  cases s <;>
    simp only [IStudent.hasGradeAtLeast, Student.hasGradeAtLeast, IStudent.pastEntries,
      Student.hasGradeLoop_iff, hmax, List.mem_map, exists_exists_and_eq_and]

/-! ## The course map -/

theorem CourseMap.find_update (m : CourseMap) (k c : String) (f : CourseIndex → CourseIndex) :
    (m.update k f).find c =
      if k = c then some (f ((m.find k).getD CourseIndex.empty)) else m.find c := by
  induction m with
  | nil => simp [CourseMap.update, CourseMap.find]
  | cons kv rest ih =>
    obtain ⟨k', v⟩ := kv
    by_cases hk : k' = k
    · subst hk
      by_cases hc : k' = c <;> simp [CourseMap.update, CourseMap.find, hc]
    · by_cases hc : k' = c
      · have hkc : k ≠ c := fun h => hk (hc.trans h.symm)
        subst hc
        simp [CourseMap.update, CourseMap.find, hk, hkc]
      · simp [CourseMap.update, CourseMap.find, hk, hc, ih]

theorem CourseIndex.bucket_pushBack (ci : CourseIndex) (g' g : Nat) (s : StudentRef) :
    (ci.pushBack g' s).bucket g =
      if g' = g ∧ g < ci.grades.length then ci.bucket g ++ [s] else ci.bucket g := by
  simp only [CourseIndex.pushBack, CourseIndex.bucket, List.getD_eq_getElem?_getD,
    List.getElem?_modify]
  by_cases hlen : g < ci.grades.length
  · rw [List.getElem?_eq_getElem hlen]
    by_cases hg : g' = g <;> simp [hg, hlen]
  · rw [List.getElem?_eq_none (not_lt.1 hlen)]
    simp [hlen]

theorem CourseIndex.bucket_empty (g : Nat) : CourseIndex.empty.bucket g = [] := by
  simp only [CourseIndex.empty, CourseIndex.bucket, List.getD_eq_getElem?_getD,
    List.getElem?_replicate]
  split_ifs <;> rfl

theorem CourseIndex.length_pushBack (ci : CourseIndex) (g : Nat) (s : StudentRef) :
    (ci.pushBack g s).grades.length = ci.grades.length := by
  simp [CourseIndex.pushBack]

theorem CourseMap.WF_nil : CourseMap.WF [] := by
  intro c ci h
  simp [CourseMap.find] at h

theorem CourseIndexDB.buildVisit_wf (s : StudentRef) (m : CourseMap) (course : String)
    (grade : Int) (hwf : m.WF) : (CourseIndexDB.buildVisit s m course grade).WF := by
  unfold CourseIndexDB.buildVisit
  split_ifs with hr
  · exact hwf
  · intro c ci hfind
    rw [CourseMap.find_update] at hfind
    split_ifs at hfind with hc
    · cases hfind
      rw [CourseIndex.length_pushBack]
      cases hf : m.find course with
      | none => simp [CourseIndex.empty]
      | some ci0 => simpa using hwf course ci0 hf
    · exact hwf c ci hfind

theorem CourseIndexDB.bucket_buildVisit (s : StudentRef) (m : CourseMap) (course : String)
    (grade : Int) (hwf : m.WF) (c : String) (g : Nat) (hg : g ≤ 10) :
    (CourseIndexDB.buildVisit s m course grade).bucket c g =
      m.bucket c g ++ if (course, grade) = (c, (g : Int)) then [s] else [] := by
  unfold CourseIndexDB.buildVisit
  split_ifs with hr he he
  · exfalso
    cases he
    rcases hr with h | h <;> omega
  · simp
  · -- the pair is stored in bucket `g` of `c`
    cases he
    have hlen : ((m.find course).getD CourseIndex.empty).grades.length = 11 := by
      cases hf : m.find course with
      | none => simp [CourseIndex.empty]
      | some ci0 => simpa using hwf course ci0 hf
    simp only [CourseMap.bucket, CourseMap.find_update, if_true, CourseIndex.bucket_pushBack,
      Int.toNat_ofNat, hlen, true_and]
    rw [if_pos (by omega)]
    cases hf : m.find course with
    | none => simp [CourseIndex.bucket_empty]
    | some ci0 => simp
  · have hlen : ((m.find course).getD CourseIndex.empty).grades.length = 11 := by
      cases hf : m.find course with
      | none => simp [CourseIndex.empty]
      | some ci0 => simpa using hwf course ci0 hf
    simp only [CourseMap.bucket, CourseMap.find_update, List.append_nil]
    by_cases hc : course = c
    · subst hc
      have hne : grade.toNat ≠ g := by
        intro h
        apply he
        have : grade = (g : Int) := by omega
        rw [this]
      simp only [if_true, CourseIndex.bucket_pushBack, hne, false_and, if_false]
      cases hf : m.find course with
      | none => simp [CourseIndex.bucket_empty]
      | some ci0 => simp
    · simp [hc]

theorem CourseIndexDB.foldl_buildVisit (s : StudentRef) (es : List (String × Int))
    (m : CourseMap) (hwf : m.WF) :
    (es.foldl (fun acc e => CourseIndexDB.buildVisit s acc e.1 e.2) m).WF ∧
      ∀ (c : String) (g : Nat), g ≤ 10 →
        (es.foldl (fun acc e => CourseIndexDB.buildVisit s acc e.1 e.2) m).bucket c g =
          m.bucket c g ++ (es.filter fun e => e = (c, (g : Int))).map fun _ => s := by
  induction es generalizing m with
  | nil => exact ⟨hwf, fun c g _ => by simp⟩
  | cons e rest ih =>
    obtain ⟨hwf', hb⟩ := ih (CourseIndexDB.buildVisit s m e.1 e.2)
      (CourseIndexDB.buildVisit_wf s m e.1 e.2 hwf)
    refine ⟨hwf', fun c g hg => ?_⟩
    rw [List.foldl_cons, hb c g hg, CourseIndexDB.bucket_buildVisit s m e.1 e.2 hwf c g hg]
    by_cases he : e = (c, (g : Int))
    · simp [List.filter_cons, he]
    · have he' : ¬ (e.1, e.2) = (c, (g : Int)) := he
      simp [List.filter_cons, he, he']

theorem CourseIndexDB.buildLoop_spec (students : List IStudentPtr) (i : Nat) (m : CourseMap)
    (hwf : m.WF) :
    (CourseIndexDB.buildLoop i m students).WF ∧
      ∀ (c : String) (g : Nat), g ≤ 10 →
        (CourseIndexDB.buildLoop i m students).bucket c g =
          m.bucket c g ++ (students.enumFrom i).flatMap (slotRefs c (g : Int)) := by
  induction students generalizing i m with
  | nil => exact ⟨hwf, fun c g _ => by simp [CourseIndexDB.buildLoop]⟩
  | cons p rest ih =>
    cases p with
    | none =>
      obtain ⟨hwf', hb⟩ := ih (i + 1) m hwf
      refine ⟨hwf', fun c g hg => ?_⟩
      rw [CourseIndexDB.buildLoop, hb c g hg]
      simp [List.enumFrom_cons, List.flatMap_cons, slotRefs]
    | some s =>
      rw [CourseIndexDB.buildLoop, IStudent.forEachPastCourse_eq_foldl]
      obtain ⟨hwf1, hb1⟩ := CourseIndexDB.foldl_buildVisit i s.pastEntries m hwf
      obtain ⟨hwf', hb⟩ := ih (i + 1) _ hwf1
      refine ⟨hwf', fun c g hg => ?_⟩
      rw [hb c g hg, hb1 c g hg]
      simp [List.enumFrom_cons, List.flatMap_cons, slotRefs, IStudent.visited_eq_pastEntries]

/-! ## Queries -/

theorem foldl_append_flatMap {α β : Type} (f : α → List β) (l : List α) (init : List β) :
    l.foldl (fun result g => result ++ f g) init = init ++ l.flatMap f := by
  induction l generalizing init with
  | nil => simp
  | cons x xs ih => simp [ih, List.flatMap_cons]

theorem CourseIndexDB.queryAtLeast_eq_flatMap (db : CourseIndexDB) (c : String) (t : Int) :
    db.queryAtLeast c t = (bucketRange t).flatMap (db.bucketOf c) := by
  unfold CourseIndexDB.queryAtLeast CourseIndexDB.bucketOf CourseMap.bucket bucketRange
  cases hf : db.index_.find c with
  | none => simp
  | some ci => simp [foldl_append_flatMap]

theorem mem_bucketRange (t : Int) (g : Nat) :
    g ∈ bucketRange t ↔ min (max t 0) 10 ≤ (g : Int) ∧ g ≤ 10 := by
  unfold bucketRange
  rw [List.mem_range'_1]
  omega

theorem CourseIndexDB.bucketOf_build (db : CourseIndexDB) (students : List IStudentPtr)
    (c : String) (g : Nat) (hg : g ≤ 10) :
    (db.build students).bucketOf c g = bucketSpec students c (g : Int) := by
  have h := (CourseIndexDB.buildLoop_spec students 0 [] CourseMap.WF_nil).2 c g hg
  simpa [CourseIndexDB.bucketOf, CourseIndexDB.build, CourseIndexDB.clear, bucketSpec,
    CourseMap.bucket, CourseMap.find, List.enum] using h

theorem CourseIndexDB.queryAtLeast_build (db : CourseIndexDB) (students : List IStudentPtr)
    (c : String) (t : Int) :
    (db.build students).queryAtLeast c t =
      (bucketRange t).flatMap fun g => bucketSpec students c (g : Int) := by
  rw [CourseIndexDB.queryAtLeast_eq_flatMap]
  apply List.flatMap_congr
  intro g hg
  exact CourseIndexDB.bucketOf_build db students c g ((mem_bucketRange t g).1 hg).2

theorem mem_bucketSpec (students : List IStudentPtr) (c : String) (g : Int) (i : StudentRef) :
    i ∈ bucketSpec students c g ↔ hasEntry students i c g := by
  unfold bucketSpec hasEntry
  rw [List.mem_flatMap]
  constructor
  · rintro ⟨⟨j, p⟩, hmem, hi⟩
    rw [List.mk_mem_enum_iff_getElem?] at hmem
    cases p with
    | none => simp [slotRefs] at hi
    | some s =>
      simp only [slotRefs, List.mem_map, List.mem_filter, decide_eq_true_eq] at hi
      obtain ⟨e, ⟨he, rfl⟩, rfl⟩ := hi
      exact ⟨s, hmem, by rwa [← IStudent.visited_eq_pastEntries]⟩
  · rintro ⟨s, hs, he⟩
    refine ⟨(i, some s), List.mk_mem_enum_iff_getElem?.2 hs, ?_⟩
    have hv : (c, g) ∈ s.visited := by rwa [IStudent.visited_eq_pastEntries]
    simp only [slotRefs, List.mem_map, List.mem_filter, decide_eq_true_eq]
    exact ⟨(c, g), ⟨hv, by simp⟩, by simp⟩

theorem CourseIndexDB.mem_queryAtLeast_build (db : CourseIndexDB)
    (students : List IStudentPtr) (c : String) (t : Int) (i : StudentRef) :
    i ∈ (db.build students).queryAtLeast c t ↔
      ∃ g : Int, min (max t 0) 10 ≤ g ∧ g ≤ 10 ∧ hasEntry students i c g := by
  rw [CourseIndexDB.queryAtLeast_build, List.mem_flatMap]
  constructor
  · rintro ⟨g, hg, hi⟩
    rw [mem_bucketRange] at hg
    exact ⟨(g : Int), hg.1, by omega, (mem_bucketSpec students c g i).1 hi⟩
  · rintro ⟨g, h1, h2, hi⟩
    have h0 : 0 ≤ g := by omega
    refine ⟨g.toNat, (mem_bucketRange t g.toNat).2 ⟨by omega, by omega⟩, ?_⟩
    rw [mem_bucketSpec, Int.toNat_of_nonneg h0]
    exact hi

theorem mem_recordsWithGradeAtLeast (students : List IStudentPtr) (c : String) (t : Int)
    (i : StudentRef) :
    i ∈ recordsWithGradeAtLeast students c t ↔
      ∃ s, students[i]? = some (some s) ∧ s.hasGradeAtLeast c t = true := by
  unfold recordsWithGradeAtLeast
  simp only [List.mem_map, List.mem_filter]
  constructor
  · rintro ⟨⟨j, p⟩, ⟨hmem, hp⟩, rfl⟩
    rw [List.mk_mem_enum_iff_getElem?] at hmem
    cases p with
    | none => simp at hp
    | some s => exact ⟨s, hmem, hp⟩
  · rintro ⟨s, hs, hp⟩
    exact ⟨(i, some s), ⟨List.mk_mem_enum_iff_getElem?.2 hs, hp⟩, rfl⟩

theorem gradesAtMostTen_entry (students : List IStudentPtr) (h : gradesAtMostTen students = true)
    (i : StudentRef) (s : IStudent) (hs : students[i]? = some (some s)) (e : String × Int)
    (he : e ∈ s.pastEntries) : e.2 ≤ 10 := by
  unfold gradesAtMostTen at h
  rw [List.all_eq_true] at h
  have hmem : some s ∈ students := List.getElem?_mem hs
  have := h (some s) hmem
  simp only [List.all_eq_true, decide_eq_true_eq] at this
  exact this e he

theorem clamp_comm (t : Int) : min (max t 0) 10 = max (min t 10) 0 := by omega

theorem bucketRange_pairwise (t : Int) : (bucketRange t).Pairwise (· < ·) := by
  unfold bucketRange
  exact List.pairwise_lt_range' _ _

theorem CourseIndexDB.queryAtLeast_of_find_none (db : CourseIndexDB) (c : String) (t : Int)
    (h : db.index_.find c = none) : db.queryAtLeast c t = [] := by
  simp [CourseIndexDB.queryAtLeast, h]

theorem CourseIndexDB.queryAtLeast_mono (db : CourseIndexDB) (c : String) (t1 t2 : Int)
    (h : t1 ≤ t2) : db.queryAtLeast c t2 ⊆ db.queryAtLeast c t1 := by
  intro r hr
  rw [CourseIndexDB.queryAtLeast_eq_flatMap, List.mem_flatMap] at hr ⊢
  obtain ⟨g, hg, hmem⟩ := hr
  rw [mem_bucketRange] at hg
  exact ⟨g, (mem_bucketRange t1 g).2 ⟨by omega, hg.2⟩, hmem⟩

theorem CourseIndexDB.find_buildVisit_none (s : StudentRef) (m : CourseMap) (course : String)
    (grade : Int) (c : String) :
    (CourseIndexDB.buildVisit s m course grade).find c = none ↔
      m.find c = none ∧ ¬ (course = c ∧ 0 ≤ grade ∧ grade ≤ 10) := by
  unfold CourseIndexDB.buildVisit
  split_ifs with hr
  · constructor
    · intro h
      exact ⟨h, fun hh => by omega⟩
    · exact fun h => h.1
  · rw [CourseMap.find_update]
    by_cases hc : course = c
    · rw [if_pos hc]
      constructor
      · intro h
        cases h
      · rintro ⟨_, h⟩
        exact absurd ⟨hc, by omega, by omega⟩ h
    · simp [hc]

theorem CourseIndexDB.find_foldl_buildVisit_none (s : StudentRef) (es : List (String × Int))
    (m : CourseMap) (c : String) :
    (es.foldl (fun acc e => CourseIndexDB.buildVisit s acc e.1 e.2) m).find c = none ↔
      m.find c = none ∧ (es.any fun e => decide (e.1 = c ∧ 0 ≤ e.2 ∧ e.2 ≤ 10)) = false := by
  induction es generalizing m with
  | nil => simp
  | cons e rest ih =>
    rw [List.foldl_cons, ih, CourseIndexDB.find_buildVisit_none]
    simp only [List.any_cons, Bool.or_eq_false_iff, decide_eq_false_iff_not]
    tauto

theorem CourseIndexDB.find_buildLoop_none (students : List IStudentPtr) (i : Nat)
    (m : CourseMap) (c : String) :
    (CourseIndexDB.buildLoop i m students).find c = none ↔
      m.find c = none ∧ courseKnown students c = false := by
  induction students generalizing i m with
  | nil => simp [CourseIndexDB.buildLoop, courseKnown]
  | cons p rest ih =>
    cases p with
    | none =>
      rw [CourseIndexDB.buildLoop, ih]
      simp [courseKnown]
    | some s =>
      rw [CourseIndexDB.buildLoop, ih, IStudent.forEachPastCourse_eq_foldl,
        CourseIndexDB.find_foldl_buildVisit_none]
      simp only [courseKnown, List.any_cons, Bool.or_eq_false_iff]
      tauto

/-! ## Claims on the course index -/

/-- Claim C1, as stated, fails on the code.  With one record holding X:10,
`queryAtLeast("X", 11)` returns that record although its
`hasGradeAtLeast("X", 11)` is false; with one record holding the stored grade
X:15, `queryAtLeast("X", 5)` is empty although `hasGradeAtLeast("X", 5)` is
true. -/
theorem queryAtLeast_not_hasGradeAtLeast :
    ((CourseIndexDB.fresh.build oneTen).queryAtLeast "X" 11 = [0] ∧
        recordsWithGradeAtLeast oneTen "X" 11 = []) ∧
      ((CourseIndexDB.fresh.build oneFifteen).queryAtLeast "X" 5 = [] ∧
        recordsWithGradeAtLeast oneFifteen "X" 5 = [0]) := by
  decide

/-- Claim C1, amended: for every collection in which no record stores a
past-course grade above 10, every course text `c` and every threshold `t`,
the records returned by `queryAtLeast(c, t)` after `build` are exactly the
records `r` of the collection with `r.hasGradeAtLeast(c, min(t, 10))`, as
sets; for `t ≤ 10` that is `r.hasGradeAtLeast(c, t)`. -/
theorem queryAtLeast_iff_hasGradeAtLeast (db : CourseIndexDB) (students : List IStudentPtr)
    (c : String) (t : Int) (hgrades : gradesAtMostTen students = true) (i : StudentRef) :
    i ∈ (db.build students).queryAtLeast c t ↔
      i ∈ recordsWithGradeAtLeast students c (min t 10) := by
  rw [CourseIndexDB.mem_queryAtLeast_build, mem_recordsWithGradeAtLeast]
  constructor
  · rintro ⟨g, h1, _, s, hs, he⟩
    refine ⟨s, hs, (IStudent.hasGradeAtLeast_iff_entries s c _).2 ⟨(c, g), he, rfl, ?_⟩⟩
    rw [← clamp_comm]
    exact h1
  · rintro ⟨s, hs, hp⟩
    obtain ⟨e, he, rfl, hle⟩ := (IStudent.hasGradeAtLeast_iff_entries s _ _).1 hp
    have h10 := gradesAtMostTen_entry students hgrades i s hs e he
    rw [← clamp_comm] at hle
    exact ⟨e.2, hle, h10, s, hs, he⟩

/-- Witness of the amended claim C1 on scenario A, course X, threshold 9. -/
theorem queryAtLeast_iff_hasGradeAtLeast_witness :
    gradesAtMostTen scenarioA = true ∧
      (0 ∈ (CourseIndexDB.fresh.build scenarioA).queryAtLeast "X" 9 ↔
        0 ∈ recordsWithGradeAtLeast scenarioA "X" (min 9 10)) :=
  ⟨by decide, queryAtLeast_iff_hasGradeAtLeast CourseIndexDB.fresh scenarioA "X" 9 (by decide) 0⟩

/-- Claim C2: after `build`, bucket `g` of course `c` (for `g` in 0..10) lists
the records having a past-course entry `(c, g)` in collection order, once per
entry in the order the entries were added; `queryAtLeast(c, t)` is the
concatenation of the buckets `clamp(t, 0, 10) .. 10` in ascending order; and
the result can be labelled with grades of its records for `c` that are
non-decreasing along it.  On scenario A, `queryAtLeast("X", 9)` is
`[record 0]` and `queryAtLeast("X", 7)` is `[record 1, record 0]`. -/
theorem queryAtLeast_concat_buckets (db : CourseIndexDB) (students : List IStudentPtr)
    (c : String) (t : Int) :
    (∀ g : Fin 11, (db.build students).bucketOf c g.val = bucketSpec students c (g.val : Int)) ∧
      (db.build students).queryAtLeast c t =
        (List.range' (clampThreshold t).toNat (11 - (clampThreshold t).toNat)).flatMap
          (fun g => (db.build students).bucketOf c g) ∧
      (∃ ps : List (StudentRef × Int),
        ps.map Prod.fst = (db.build students).queryAtLeast c t ∧
          ps.Forall (fun p => hasEntry students p.1 c p.2) ∧
          (ps.map Prod.snd).Pairwise (· ≤ ·)) ∧
      (db.build scenarioA).queryAtLeast "X" 9 = [0] ∧
      (db.build scenarioA).queryAtLeast "X" 7 = [1, 0] := by
  refine ⟨fun g => CourseIndexDB.bucketOf_build db students c g.val (by omega),
    CourseIndexDB.queryAtLeast_eq_flatMap _ c t, ?_, ?_, ?_⟩
  rotate_left
  · show (CourseIndexDB.fresh.build scenarioA).queryAtLeast "X" 9 = [0]
    decide
  · show (CourseIndexDB.fresh.build scenarioA).queryAtLeast "X" 7 = [1, 0]
    decide
  refine ⟨(bucketRange t).flatMap fun g =>
    (bucketSpec students c (g : Int)).map fun i => (i, (g : Int)), ?_, ?_, ?_⟩
  · rw [CourseIndexDB.queryAtLeast_build, List.map_flatMap]
    apply List.flatMap_congr
    intro g _
    simp [List.map_map, Function.comp_def]
  · rw [List.forall_iff_forall_mem]
    intro p hp
    rw [List.mem_flatMap] at hp
    obtain ⟨g, _, hp⟩ := hp
    rw [List.mem_map] at hp
    obtain ⟨i, hi, rfl⟩ := hp
    exact (mem_bucketSpec students c g i).1 hi
  · rw [List.map_flatMap, List.pairwise_flatMap]
    constructor
    · intro g _
      simp only [List.map_map, Function.comp_def]
      rw [List.pairwise_map]
      exact List.pairwise_of_forall (fun _ _ => le_refl _)
    · refine (bucketRange_pairwise t).imp ?_
      intro g1 g2 hlt x hx y hy
      simp only [List.map_map, Function.comp_def, List.mem_map] at hx hy
      obtain ⟨_, _, rfl⟩ := hx
      obtain ⟨_, _, rfl⟩ := hy
      omega

/-- Claim C3: for every built index, course `c` and thresholds `t1 ≤ t2` (any
integers), every record reference in `queryAtLeast(c, t2)` also occurs in
`queryAtLeast(c, t1)`. -/
theorem queryAtLeast_superset (db : CourseIndexDB) (students : List IStudentPtr)
    (c : String) (t1 t2 : Int) (h : t1 ≤ t2) :
    (db.build students).queryAtLeast c t2 ⊆ (db.build students).queryAtLeast c t1 :=
  CourseIndexDB.queryAtLeast_mono _ c t1 t2 h

/-- Witness of claim C3 on scenario A with thresholds -3 and 9. -/
theorem queryAtLeast_superset_witness :
    (-3 : Int) ≤ 9 ∧
      (CourseIndexDB.fresh.build scenarioA).queryAtLeast "X" 9 ⊆
        (CourseIndexDB.fresh.build scenarioA).queryAtLeast "X" (-3) :=
  ⟨by decide, queryAtLeast_superset CourseIndexDB.fresh scenarioA "X" (-3) 9 (by decide)⟩

/-- Claim C4 (clamp law): for every built index and course `c`,
`queryAtLeast(c, t)` is the same sequence as `queryAtLeast(c, 0)` when `t < 0`
and as `queryAtLeast(c, 10)` when `t > 10`. -/
theorem queryAtLeast_clamp (db : CourseIndexDB) (students : List IStudentPtr) (c : String)
    (t : Int) :
    (t < 0 → (db.build students).queryAtLeast c t = (db.build students).queryAtLeast c 0) ∧
      (t > 10 →
        (db.build students).queryAtLeast c t = (db.build students).queryAtLeast c 10) := by
  constructor
  · intro h
    have hc : min (max t 0) 10 = min (max (0 : Int) 0) 10 := by omega
    simp only [CourseIndexDB.queryAtLeast, hc]
  · intro h
    have hc : min (max t 0) 10 = min (max (10 : Int) 0) 10 := by omega
    simp only [CourseIndexDB.queryAtLeast, hc]

/-- Witness of claim C4 at thresholds -5 and 99 on scenario A. -/
theorem queryAtLeast_clamp_witness :
    ((-5 : Int) < 0 ∧
        (CourseIndexDB.fresh.build scenarioA).queryAtLeast "X" (-5) =
          (CourseIndexDB.fresh.build scenarioA).queryAtLeast "X" 0) ∧
      ((99 : Int) > 10 ∧
        (CourseIndexDB.fresh.build scenarioA).queryAtLeast "X" 99 =
          (CourseIndexDB.fresh.build scenarioA).queryAtLeast "X" 10) :=
  ⟨⟨by decide, (queryAtLeast_clamp CourseIndexDB.fresh scenarioA "X" (-5)).1 (by decide)⟩,
    ⟨by decide, (queryAtLeast_clamp CourseIndexDB.fresh scenarioA "X" 99).2 (by decide)⟩⟩

/-- Claim C5: for every threshold `t`, `queryAtLeast(c, t)` is the empty
sequence whenever `c` is not a course of the index.  After `build`, `c` has no
entry in the index exactly when no record of the collection holds a
past-course entry for `c` with grade in 0..10, and then the query is empty;
on an index on which `build` was never called every query is empty.  The
model is a total function, so no error is raised. -/
theorem queryAtLeast_unknown_course (db : CourseIndexDB) (students : List IStudentPtr)
    (c : String) (t : Int) :
    (courseKnown students c = false → (db.build students).queryAtLeast c t = []) ∧
      (courseKnown students c = false ↔ (db.build students).index_.find c = none) ∧
      (db.index_.find c = none → db.queryAtLeast c t = []) ∧
      CourseIndexDB.fresh.queryAtLeast c t = [] := by
  have hfind : courseKnown students c = false ↔ (db.build students).index_.find c = none := by
    simp only [CourseIndexDB.build, CourseIndexDB.clear, CourseIndexDB.find_buildLoop_none,
      CourseMap.find, true_and]
  refine ⟨fun h => ?_, hfind, CourseIndexDB.queryAtLeast_of_find_none db c t, rfl⟩
  exact CourseIndexDB.queryAtLeast_of_find_none _ c t (hfind.1 h)

/-- Witness of claim C5: course NOPE, threshold 5, on scenario A. -/
theorem queryAtLeast_unknown_course_witness :
    courseKnown scenarioA "NOPE" = false ∧
      (CourseIndexDB.fresh.build scenarioA).queryAtLeast "NOPE" 5 = [] :=
  ⟨by decide,
    (queryAtLeast_unknown_course CourseIndexDB.fresh scenarioA "NOPE" 5).1 (by decide)⟩

/-- Claim C6: `build` discards the previous state.  For all collections `A`
and `B`, `build(A)` followed by `build(B)` leaves the same index (same
entries, same buckets, same order) as `build(B)` on a fresh index; building
twice from the same collection gives the same index as building once. -/
theorem build_discards_previous_state (db : CourseIndexDB) (A B : List IStudentPtr) :
    (db.build A).build B = CourseIndexDB.fresh.build B ∧
      (db.build A).build A = db.build A :=
  ⟨rfl, rfl⟩

/-! ## Claims on records -/

/-- Claim C7: `hasGradeAtLeast(c, t)` is true if and only if some past-course
entry of the record has a course code whose text rendering equals `c` and a
grade `≥ max(t, 0)`. -/
theorem hasGradeAtLeast_iff (s : IStudent) (c : String) (t : Int) :
    s.hasGradeAtLeast c t = true ↔ ∃ e ∈ s.pastEntries, e.1 = c ∧ e.2 ≥ max t 0 :=
  IStudent.hasGradeAtLeast_iff_entries s c t

/-! ## Sort views -/

theorem insertSorted_perm (comp : Nat → Nat → Bool) (x : Nat) (l : List Nat) :
    (insertSorted comp x l).Perm (x :: l) := by
  induction l with
  | nil => exact List.Perm.refl _
  | cons y ys ih =>
    unfold insertSorted
    split_ifs
    · exact List.Perm.refl _
    · exact (ih.cons y).trans (List.Perm.swap x y ys)

theorem stdSort_perm (comp : Nat → Nat → Bool) (l : List Nat) : (stdSort comp l).Perm l := by
  induction l with
  | nil => exact List.Perm.refl _
  | cons x xs ih => exact (insertSorted_perm comp x _).trans (ih.cons x)

theorem insertSorted_pairwise {κ : Type} [LinearOrder κ] (key : Nat → κ)
    (comp : Nat → Nat → Bool) (x : Nat) (l : List Nat)
    (hcomp : ∀ y ∈ l, comp x y = decide (key x < key y))
    (hl : l.Pairwise fun a b => key a ≤ key b) :
    (insertSorted comp x l).Pairwise fun a b => key a ≤ key b := by
  induction l with
  | nil => simp [insertSorted]
  | cons y ys ih =>
    have hy := hcomp y (List.mem_cons_self _ _)
    rw [List.pairwise_cons] at hl
    unfold insertSorted
    split_ifs with hc
    · have hlt : key x < key y := by simpa [hc] using hy.symm
      refine List.Pairwise.cons ?_ (List.Pairwise.cons hl.1 hl.2)
      intro z hz
      rcases List.mem_cons.1 hz with rfl | hz
      · exact le_of_lt hlt
      · exact le_trans (le_of_lt hlt) (hl.1 z hz)
    · have hle : key y ≤ key x := by
        have : ¬ key x < key y := by
          intro hlt
          apply hc
          rw [hy]
          exact decide_eq_true hlt
        exact not_lt.1 this
      refine List.Pairwise.cons ?_ (ih (fun z hz => hcomp z (List.mem_cons_of_mem _ hz)) hl.2)
      intro z hz
      rcases List.mem_cons.1 ((insertSorted_perm comp x ys).subset hz) with rfl | hz
      · exact hle
      · exact hl.1 z hz

theorem stdSort_pairwise {κ : Type} [LinearOrder κ] (key : Nat → κ) (comp : Nat → Nat → Bool)
    (l : List Nat) (hcomp : ∀ a ∈ l, ∀ b ∈ l, comp a b = decide (key a < key b)) :
    (stdSort comp l).Pairwise fun a b => key a ≤ key b := by
  induction l with
  | nil => simp [stdSort]
  | cons x xs ih =>
    unfold stdSort
    apply insertSorted_pairwise
    · intro y hy
      exact hcomp x (List.mem_cons_self _ _) y
        (List.mem_cons_of_mem _ ((stdSort_perm comp xs).subset hy))
    · exact ih fun a ha b hb =>
        hcomp a (List.mem_cons_of_mem _ ha) b (List.mem_cons_of_mem _ hb)

theorem pairwise_getD_succ {R : Nat → Nat → Prop} (l : List Nat) (h : l.Pairwise R) (i : Nat)
    (hi : i + 1 < l.length) : R (l.getD i 0) (l.getD (i + 1) 0) := by
  have h1 : l.getD i 0 = l[i] := by
    rw [List.getD_eq_getElem?_getD, List.getElem?_eq_getElem (by omega)]
    rfl
  have h2 : l.getD (i + 1) 0 = l[i + 1] := by
    rw [List.getD_eq_getElem?_getD, List.getElem?_eq_getElem hi]
    rfl
  rw [h1, h2]
  exact List.pairwise_iff_getElem.1 h i (i + 1) (by omega) hi (by omega)

theorem slot_of_noAbsentSlot (students : List IStudentPtr) (h : noAbsentSlot students)
    (a : Nat) (ha : a < students.length) : ∃ s, slot students a = some s := by
  have hget : slot students a = students[a] := by
    unfold slot
    rw [List.getD_eq_getElem?_getD, List.getElem?_eq_getElem ha]
    rfl
  have hne := h students[a] (List.getElem_mem ha)
  rw [hget]
  exact Option.ne_none_iff_exists'.1 hne

theorem compByName_eq (students : List IStudentPtr) (h : noAbsentSlot students) (a b : Nat)
    (ha : a < students.length) (hb : b < students.length) :
    compByName students a b =
      decide ((nameAt students a).toList < (nameAt students b).toList) := by
  obtain ⟨sa, hsa⟩ := slot_of_noAbsentSlot students h a ha
  obtain ⟨sb, hsb⟩ := slot_of_noAbsentSlot students h b hb
  simp [compByName, nameAt, hsa, hsb, strLt]

theorem compByRoll_eq (students : List IStudentPtr) (h : noAbsentSlot students) (a b : Nat)
    (ha : a < students.length) (hb : b < students.length) :
    compByRoll students a b =
      decide ((rollAt students a).toList < (rollAt students b).toList) := by
  obtain ⟨sa, hsa⟩ := slot_of_noAbsentSlot students h a ha
  obtain ⟨sb, hsb⟩ := slot_of_noAbsentSlot students h b hb
  simp [compByRoll, rollAt, hsa, hsb, strLt]

theorem count_of_perm_range (l : List Nat) (n : Nat) (h : l.Perm (List.range n)) (i : Nat)
    (hi : i < n) : l.count i = 1 := by
  rw [h.count_eq]
  exact List.count_eq_one_of_mem (List.nodup_range n) (List.mem_range.2 hi)

theorem strictWeakOrderOn_of_key {κ : Type} [LinearOrder κ] (key : Nat → κ)
    (comp : Nat → Nat → Bool) (n : Nat)
    (hcomp : ∀ a b, a < n → b < n → comp a b = decide (key a < key b)) :
    StrictWeakOrderOn comp n := by
  refine ⟨?_, ?_, ?_⟩
  · intro a ha
    rw [hcomp a a ha ha]
    exact decide_eq_false (lt_irrefl _)
  · intro a b c ha hb hc hab hbc
    rw [hcomp a b ha hb, decide_eq_true_eq] at hab
    rw [hcomp b c hb hc, decide_eq_true_eq] at hbc
    rw [hcomp a c ha hc]
    exact decide_eq_true (lt_trans hab hbc)
  · intro a b c ha hb hc hab hba hbc hcb
    rw [hcomp a b ha hb, decide_eq_false_iff_not] at hab
    rw [hcomp b a hb ha, decide_eq_false_iff_not] at hba
    rw [hcomp b c hb hc, decide_eq_false_iff_not] at hbc
    rw [hcomp c b hc hb, decide_eq_false_iff_not] at hcb
    have h1 : key a = key b := le_antisymm (not_lt.1 hba) (not_lt.1 hab)
    have h2 : key b = key c := le_antisymm (not_lt.1 hcb) (not_lt.1 hbc)
    rw [hcomp a c ha hc, hcomp c a hc ha, h1, h2]
    exact ⟨decide_eq_false (lt_irrefl _), decide_eq_false (lt_irrefl _)⟩

/-- Claim C8: for every collection of `n` records (no slot is absent), both
comparators meet the requirement of `std::sort`, and the views `byName` and
`byRoll` returned by `buildAndSortViews` are permutations of `0..n-1`: each
has length `n` and contains every index `0..n-1` exactly once. -/
theorem views_are_permutations (students : List IStudentPtr) (h : noAbsentSlot students) :
    (StrictWeakOrderOn (compByName students) students.length ∧
        StrictWeakOrderOn (compByRoll students) students.length) ∧
      (buildAndSortViews students).byName.Perm (List.range students.length) ∧
      (buildAndSortViews students).byRoll.Perm (List.range students.length) ∧
      (buildAndSortViews students).byName.length = students.length ∧
      (buildAndSortViews students).byRoll.length = students.length ∧
      ∀ i : Fin students.length,
        (buildAndSortViews students).byName.count i.val = 1 ∧
          (buildAndSortViews students).byRoll.count i.val = 1 := by
  have hn : (buildAndSortViews students).byName.Perm (List.range students.length) :=
    stdSort_perm _ _
  have hr : (buildAndSortViews students).byRoll.Perm (List.range students.length) :=
    stdSort_perm _ _
  refine ⟨⟨?_, ?_⟩, hn, hr, ?_, ?_, fun i => ⟨?_, ?_⟩⟩
  · exact strictWeakOrderOn_of_key (fun a => (nameAt students a).toList) _ _
      fun a b ha hb => compByName_eq students h a b ha hb
  · exact strictWeakOrderOn_of_key (fun a => (rollAt students a).toList) _ _
      fun a b ha hb => compByRoll_eq students h a b ha hb
  · rw [hn.length_eq, List.length_range]
  · rw [hr.length_eq, List.length_range]
  · exact count_of_perm_range _ _ hn i.val i.isLt
  · exact count_of_perm_range _ _ hr i.val i.isLt

/-- Witness of claim C8 on the collection of three text rolls and one
integer roll, with the two views it gets. -/
theorem views_are_permutations_witness :
    noAbsentSlot mixedRolls ∧
      (buildAndSortViews mixedRolls).byName = [0, 1, 2, 3] ∧
      (buildAndSortViews mixedRolls).byRoll = [3, 2, 0, 1] ∧
      (buildAndSortViews mixedRolls).byName.Perm (List.range mixedRolls.length) ∧
      (buildAndSortViews mixedRolls).byRoll.Perm (List.range mixedRolls.length) :=
  ⟨by decide, by decide, by decide,
    (views_are_permutations mixedRolls (by decide)).2.1,
    (views_are_permutations mixedRolls (by decide)).2.2.1⟩

/-- Claim C10: for every collection in which no slot is absent, the `byRoll`
view is ordered by the text rendering of the roll, compared lexicographically
as text for both variants: at consecutive positions `i`, `i+1` the roll text
of the record at `byRoll[i]` is at most that of the record at `byRoll[i+1]`.
The roll text of a record is its stored roll for the text variant and the
decimal digits of its stored roll for the integer variant, so integer rolls
are ordered as decimal strings and not as numbers: "10" is below "9", rolls
9, 10 get the view `[1, 0]` and rolls 10, 9 the view `[0, 1]`; rolls "b",
"c", "a", 100 get `[3, 2, 0, 1]`; on scenario A the view is `[1, 0]`. -/
theorem byRoll_sorted (students : List IStudentPtr) (h : noAbsentSlot students) :
    (∀ i : Nat, i + 1 < (buildAndSortViews students).byRoll.length →
        (rollAt students ((buildAndSortViews students).byRoll.getD i 0)).toList ≤
          (rollAt students ((buildAndSortViews students).byRoll.getD (i + 1) 0)).toList) ∧
      ((∀ s : IIITStudent, (IStudent.iiit s).getRollStr = s.roll) ∧
        (∀ s : IITStudent, (IStudent.iit s).getRollStr = Nat.repr s.roll) ∧
        (∀ (rest : List IStudentPtr) (s : IStudent),
          rollAt (some s :: rest) 0 = s.getRollStr) ∧
        Nat.repr 9 = "9" ∧ Nat.repr 10 = "10" ∧ Nat.repr 100 = "100") ∧
      strLt (toStringGeneric (10 : Nat)) (toStringGeneric (9 : Nat)) = true ∧
      (rollAt rolls9and10 0 = "9" ∧ rollAt rolls9and10 1 = "10" ∧
        (buildAndSortViews rolls9and10).byRoll = [1, 0]) ∧
      (buildAndSortViews rolls10and9).byRoll = [0, 1] ∧
      (buildAndSortViews mixedRolls).byRoll = [3, 2, 0, 1] ∧
      (buildAndSortViews scenarioA).byRoll = [1, 0] := by
  refine ⟨fun i hi => ?_, ⟨fun _ => rfl, fun _ => rfl, fun _ _ => rfl, by decide, by decide,
    by decide⟩, by decide, by decide, by decide, by decide, by decide⟩
  have hp : (buildAndSortViews students).byRoll.Pairwise
      fun a b => (rollAt students a).toList ≤ (rollAt students b).toList := by
    apply stdSort_pairwise
    intro a ha b hb
    exact compByRoll_eq students h a b (List.mem_range.1 ha) (List.mem_range.1 hb)
  exact pairwise_getD_succ _ hp i hi

/-- Witness of claim C10 on the collection with integer rolls 10 and 9: the
view keeps the record with roll 10 before the record with roll 9. -/
theorem byRoll_sorted_witness :
    noAbsentSlot rolls10and9 ∧
      (buildAndSortViews rolls10and9).byRoll = [0, 1] ∧
      (∀ i : Nat, i + 1 < (buildAndSortViews rolls10and9).byRoll.length →
        (rollAt rolls10and9 ((buildAndSortViews rolls10and9).byRoll.getD i 0)).toList ≤
          (rollAt rolls10and9
            ((buildAndSortViews rolls10and9).byRoll.getD (i + 1) 0)).toList) :=
  ⟨by decide, by decide, (byRoll_sorted rolls10and9 (by decide)).1⟩

/-- Claim C11: for every collection, the `byNameList` view returned by
`buildAndSortViews` has the same length as `byName` and equals it element for
element. -/
theorem byNameList_eq_byName (students : List IStudentPtr) :
    (buildAndSortViews students).byNameList.length =
        (buildAndSortViews students).byName.length ∧
      (buildAndSortViews students).byNameList = (buildAndSortViews students).byName ∧
      ∀ i : Nat, (buildAndSortViews students).byNameList[i]? =
        (buildAndSortViews students).byName[i]? :=
  ⟨rfl, rfl, fun _ => rfl⟩

/-! ## Out-of-range grades and the index -/

theorem IStudent.pastEntries_dropOutOfRange (s : IStudent) :
    s.dropOutOfRange.pastEntries =
      s.pastEntries.filter fun e => decide (0 ≤ e.2 ∧ e.2 ≤ 10) := by
  cases s <;>
    simp only [IStudent.dropOutOfRange, IStudent.pastEntries, List.filter_map] <;> rfl

theorem CourseIndexDB.foldl_buildVisit_filter (s : StudentRef) (es : List (String × Int))
    (m : CourseMap) :
    (es.filter fun e => decide (0 ≤ e.2 ∧ e.2 ≤ 10)).foldl
        (fun acc e => CourseIndexDB.buildVisit s acc e.1 e.2) m =
      es.foldl (fun acc e => CourseIndexDB.buildVisit s acc e.1 e.2) m := by
  induction es generalizing m with
  | nil => rfl
  | cons e rest ih =>
    by_cases he : 0 ≤ e.2 ∧ e.2 ≤ 10
    · simp only [List.filter_cons, he, and_self, decide_True, if_true, List.foldl_cons, ih]
    · have hskip : CourseIndexDB.buildVisit s m e.1 e.2 = m := by
        unfold CourseIndexDB.buildVisit
        rw [if_pos]
        omega
      have hd : ¬ (decide (0 ≤ e.2 ∧ e.2 ≤ 10) = true) := by
        rw [decide_eq_true_eq]
        exact he
      rw [List.filter_cons, if_neg hd, List.foldl_cons, hskip]
      exact ih m

theorem CourseIndexDB.buildLoop_dropOutOfRange (students : List IStudentPtr) (i : Nat)
    (m : CourseMap) :
    CourseIndexDB.buildLoop i m (students.map (Option.map IStudent.dropOutOfRange)) =
      CourseIndexDB.buildLoop i m students := by
  induction students generalizing i m with
  | nil => rfl
  | cons p rest ih =>
    cases p with
    | none => simpa [CourseIndexDB.buildLoop] using ih (i + 1) m
    | some s =>
      simp only [List.map_cons, Option.map_some', CourseIndexDB.buildLoop,
        IStudent.forEachPastCourse_eq_foldl, IStudent.pastEntries_dropOutOfRange,
        CourseIndexDB.foldl_buildVisit_filter, ih]

/-- Claim C12 fails on the code: `parseStudentRecord` stores grades outside
0..10.  The source line `IIIT,Di,8,CSE,2025,,X:15;Y:-1` is accepted and the
record keeps both entries, with grades 15 and -1. -/
theorem parseStudentRecord_stores_out_of_range :
    parseStudentRecord (splitString "IIIT,Di,8,CSE,2025,,X:15;Y:-1" ',') =
      some (.iiit (((Student.new "Di" "8" "CSE" 2025).addPastCourse "X" 15).addPastCourse
        "Y" (-1))) := by
  decide

/-- Claim C13: `build` ignores out-of-range pairs without dropping the
record.  The index built from a collection is the index built from the
collection with every past-course entry of grade below 0 or above 10
deleted; a record with entries X:15 and Y:8 is absent from every query on X
and is returned by `queryAtLeast("Y", 8)`. -/
theorem build_ignores_out_of_range (db : CourseIndexDB) (students : List IStudentPtr)
    (t : Int) :
    db.build students = db.build (students.map (Option.map IStudent.dropOutOfRange)) ∧
      (db.build fifteenAndEight).queryAtLeast "X" t = [] ∧
      (db.build fifteenAndEight).queryAtLeast "Y" 8 = [0] := by
  refine ⟨?_, ?_, ?_⟩
  · simp only [CourseIndexDB.build, CourseIndexDB.buildLoop_dropOutOfRange]
  · apply CourseIndexDB.queryAtLeast_of_find_none
    show (CourseIndexDB.fresh.build fifteenAndEight).index_.find "X" = none
    decide
  · show (CourseIndexDB.fresh.build fifteenAndEight).queryAtLeast "Y" 8 = [0]
    decide

theorem oneGradePerCourse_entry (students : List IStudentPtr)
    (h : oneGradePerCourse students = true) (i : StudentRef) (s : IStudent)
    (hs : students[i]? = some (some s)) (c : String) (g1 g2 : Int)
    (h1 : (c, g1) ∈ s.pastEntries) (h2 : (c, g2) ∈ s.pastEntries)
    (r1 : 0 ≤ g1 ∧ g1 ≤ 10) (r2 : 0 ≤ g2 ∧ g2 ≤ 10) : g1 = g2 := by
  unfold oneGradePerCourse at h
  rw [List.all_eq_true] at h
  have hrec := h (some s) (List.getElem?_mem hs)
  simp only [List.all_eq_true, decide_eq_true_eq] at hrec
  exact hrec (c, g1) h1 (c, g2) h2 ⟨rfl, r1.1, r1.2, r2.1, r2.2⟩

/-- Claim C14, as stated, fails on the code: a record holding X:7 and X:9 is
entered in bucket 7 and in bucket 9 of course X. -/
theorem record_in_two_buckets :
    0 ∈ (CourseIndexDB.fresh.build twoGrades).bucketOf "X" 7 ∧
      0 ∈ (CourseIndexDB.fresh.build twoGrades).bucketOf "X" 9 := by
  decide

/-- Claim C14, amended: for every collection in which no record holds two
past-course entries for one course with different grades in 0..10, after
`build`, for every course `c` and record `r`, `r` appears in at most one of
the 11 grade buckets of `c`. -/
theorem record_in_one_bucket (db : CourseIndexDB) (students : List IStudentPtr) (c : String)
    (r : StudentRef) (g1 g2 : Fin 11) (h : oneGradePerCourse students = true)
    (h1 : r ∈ (db.build students).bucketOf c g1.val)
    (h2 : r ∈ (db.build students).bucketOf c g2.val) : g1 = g2 := by
  rw [CourseIndexDB.bucketOf_build db students c g1.val (by omega), mem_bucketSpec] at h1
  rw [CourseIndexDB.bucketOf_build db students c g2.val (by omega), mem_bucketSpec] at h2
  obtain ⟨s1, hs1, he1⟩ := h1
  obtain ⟨s2, hs2, he2⟩ := h2
  have hs : s2 = s1 := by
    rw [hs1] at hs2
    exact (Option.some.inj (Option.some.inj hs2)).symm
  subst hs
  have hg := oneGradePerCourse_entry students h r s2 hs1 c _ _ he1 he2
    ⟨by omega, by omega⟩ ⟨by omega, by omega⟩
  exact Fin.ext (by omega)

/-- Witness of the amended claim C14 on scenario A: record 0 and bucket 9 of
course X. -/
theorem record_in_one_bucket_witness :
    oneGradePerCourse scenarioA = true ∧
      0 ∈ (CourseIndexDB.fresh.build scenarioA).bucketOf "X" (9 : Fin 11).val ∧
      (9 : Fin 11) = 9 :=
  ⟨by decide, by decide,
    record_in_one_bucket CourseIndexDB.fresh scenarioA "X" 0 9 9 (by decide) (by decide)
      (by decide)⟩

/-! ## Loading -/

theorem loadLoop_eq (lines : List String) (students : List IStudentPtr) :
    loadLoop lines students = students ++ lines.filterMap lineRecord := by
  induction lines generalizing students with
  | nil => simp [loadLoop]
  | cons line rest ih =>
    unfold loadLoop
    by_cases hl : line = ""
    · simp [hl, ih, lineRecord]
    · cases hp : parseStudentRecord (splitString line ',') with
      | none => simp [hl, hp, ih, lineRecord]
      | some ptr => simp [hl, hp, ih, lineRecord]

theorem parseStudentRecord_short (cols : List String) (h : cols.length < 7) :
    parseStudentRecord cols = none := by
  rcases cols with _ | ⟨c0, _ | ⟨c1, _ | ⟨c2, _ | ⟨c3, _ | ⟨c4, _ | ⟨c5, _ | ⟨c6, more⟩⟩⟩⟩⟩⟩⟩ <;>
    first
    | rfl
    | (simp only [List.length_cons] at h; omega)

theorem parseStudentRecord_take (cols : List String) :
    parseStudentRecord cols = parseStudentRecord (cols.take 7) := by
  rcases cols with _ | ⟨c0, _ | ⟨c1, _ | ⟨c2, _ | ⟨c3, _ | ⟨c4, _ | ⟨c5, _ | ⟨c6, more⟩⟩⟩⟩⟩⟩⟩ <;>
    rfl

theorem parseStudentRecord_unknown_institute (cols : List String)
    (h1 : instituteOf cols ≠ "IIIT") (h2 : instituteOf cols ≠ "IIT") :
    parseStudentRecord cols = none := by
  rcases cols with _ | ⟨c0, _ | ⟨c1, _ | ⟨c2, _ | ⟨c3, _ | ⟨c4, _ | ⟨c5, _ | ⟨c6, more⟩⟩⟩⟩⟩⟩⟩
  all_goals first
    | rfl
    | skip
  simp only [instituteOf, List.headD_cons] at h1 h2
  simp only [parseStudentRecord, h1, h2, if_false]
  cases stoulAsUInt (trim c4) <;> rfl

/-- Claim C15: for every sequence of source lines after the header,
`loadStudentsFromCSV` returns exactly the records of the non-empty lines that
`parseStudentRecord` accepts, one per accepted line and in source order.  A
rejected line contributes no record and leaves the records of the other
lines as they are; a line whose trimmed institute tag is neither "IIIT" nor
"IIT" is rejected. -/
theorem loadStudentsFromCSV_spec (header : String) (lines : List String) :
    loadStudentsFromCSV (some (header :: lines)) = some (lines.filterMap lineRecord) ∧
      (∀ before after : List String, ∀ line : String,
        parseStudentRecord (splitString line ',') = none →
          loadStudentsFromCSV (some (header :: (before ++ line :: after))) =
            loadStudentsFromCSV (some (header :: (before ++ after)))) ∧
      (∀ before after : List String, ∀ line : String, ∀ ptr : IStudent,
        line ≠ "" → parseStudentRecord (splitString line ',') = some ptr →
          loadStudentsFromCSV (some (header :: (before ++ line :: after))) =
            some (before.filterMap lineRecord ++ some ptr :: after.filterMap lineRecord)) ∧
      (∀ line : String, instituteOf (splitString line ',') ≠ "IIIT" →
        instituteOf (splitString line ',') ≠ "IIT" →
          parseStudentRecord (splitString line ',') = none) := by
  refine ⟨?_, ?_, ?_, ?_⟩
  · simp [loadStudentsFromCSV, loadLoop_eq]
  · intro before after line hrej
    have hnone : lineRecord line = none := by
      unfold lineRecord
      split_ifs
      · rfl
      · rw [hrej]
        rfl
    simp [loadStudentsFromCSV, loadLoop_eq, List.filterMap_append, List.filterMap_cons, hnone]
  · intro before after line ptr hne hacc
    have hsome : lineRecord line = some (some ptr) := by
      unfold lineRecord
      rw [if_neg hne, hacc]
      rfl
    simp [loadStudentsFromCSV, loadLoop_eq, List.filterMap_append, List.filterMap_cons, hsome]
  · intro line h1 h2
    exact parseStudentRecord_unknown_institute _ h1 h2

/-- Witness of claim C15: a line with tag MIT between the header and a valid
line is skipped, and the valid line after it still loads. -/
theorem loadStudentsFromCSV_spec_witness :
    parseStudentRecord (splitString "MIT,A,1,C,2020,,X:9" ',') = none ∧
      loadStudentsFromCSV (some ("hdr" :: ([] ++ "MIT,A,1,C,2020,,X:9" ::
          ["IIIT,A,1,C,2020,,X:9"]))) =
        loadStudentsFromCSV (some ("hdr" :: ([] ++ ["IIIT,A,1,C,2020,,X:9"]))) :=
  ⟨by decide,
    (loadStudentsFromCSV_spec "hdr" []).2.1 [] ["IIIT,A,1,C,2020,,X:9"]
      "MIT,A,1,C,2020,,X:9" (by decide)⟩

/-- Claim C16, as stated, fails on the code: a row of 8 comma-separated
fields is accepted by `parseStudentRecord` and loaded, the eighth field being
ignored. -/
theorem eight_fields_accepted :
    (splitString "IIIT,A,1,CSE,2025,,X:9,extra" ',').length = 8 ∧
      parseStudentRecord (splitString "IIIT,A,1,CSE,2025,,X:9,extra" ',') =
        some (.iiit ((Student.new "A" "1" "CSE" 2025).addPastCourse "X" 9)) ∧
      loadStudentsFromCSV (some ["hdr", "IIIT,A,1,CSE,2025,,X:9,extra"]) =
        some [some (.iiit ((Student.new "A" "1" "CSE" 2025).addPastCourse "X" 9))] := by
  decide

/-- Claim C16, amended: for every row with fewer than 7 comma-separated
fields, `parseStudentRecord` rejects the row and the loader skips it; a row
with more than 7 fields is treated as the row of its first 7 fields. -/
theorem too_few_fields_rejected (cols : List String) (line : String) (rest : List String)
    (students : List IStudentPtr) :
    (cols.length < 7 → parseStudentRecord cols = none) ∧
      ((splitString line ',').length < 7 →
        loadLoop (line :: rest) students = loadLoop rest students) ∧
      parseStudentRecord cols = parseStudentRecord (cols.take 7) := by
  refine ⟨parseStudentRecord_short cols, ?_, parseStudentRecord_take cols⟩
  intro h
  have hp := parseStudentRecord_short _ h
  rw [loadLoop]
  split_ifs
  · rfl
  · rw [hp]

/-- Witness of the amended claim C16 on a row of two fields. -/
theorem too_few_fields_rejected_witness :
    (["IIIT", "A"].length < 7 ∧ parseStudentRecord ["IIIT", "A"] = none) ∧
      ((splitString "IIIT,A" ',').length < 7 ∧
        loadLoop ("IIIT,A" :: ["IIIT,A,1,C,2020,,X:9"]) [] =
          loadLoop ["IIIT,A,1,C,2020,,X:9"] []) :=
  ⟨⟨by decide,
      (too_few_fields_rejected ["IIIT", "A"] "IIIT,A" ["IIIT,A,1,C,2020,,X:9"] []).1
        (by decide)⟩,
    ⟨by decide,
      (too_few_fields_rejected ["IIIT", "A"] "IIIT,A" ["IIIT,A,1,C,2020,,X:9"] []).2.1
        (by decide)⟩⟩

/-! ## Mutators and traversal -/

theorem Student.forEachPastCourse_addPastCourse {R C σ : Type} [ToStringGeneric C]
    (s : Student R C) (code : C) (grade : Int) (f : σ → String → Int → σ) (st : σ) :
    (s.addPastCourse code grade).forEachPastCourse f st =
      f (s.forEachPastCourse f st) (toStringGeneric code) grade := by
  simp [Student.forEachPastCourse, Student.addPastCourse, List.foldl_append]

/-- Claim C17: for every record of either variant and every `(code, grade)`
with any integer grade, after `addPastCourse(code, grade)` the traversal
`forEachPastCourse` makes the calls it made before followed by one call on
(text rendering of `code`, `grade`), so the visited sequence is the former
one followed by that pair; name, roll text, branch and starting year are
unchanged; and a second traversal visits the same sequence as the first. -/
theorem addPastCourse_frame (a : IIITStudent) (codeA : String) (b : IITStudent) (codeB : Int)
    (grade : Int) (s : IStudent) :
    ((IStudent.iiit (a.addPastCourse codeA grade)).visited =
        (IStudent.iiit a).visited ++ [(toStringGeneric codeA, grade)] ∧
      (IStudent.iit (b.addPastCourse codeB grade)).visited =
        (IStudent.iit b).visited ++ [(toStringGeneric codeB, grade)]) ∧
    ((IStudent.iiit (a.addPastCourse codeA grade)).getNameStr = (IStudent.iiit a).getNameStr ∧
      (IStudent.iiit (a.addPastCourse codeA grade)).getRollStr = (IStudent.iiit a).getRollStr ∧
      (IStudent.iiit (a.addPastCourse codeA grade)).getBranchStr =
        (IStudent.iiit a).getBranchStr ∧
      (IStudent.iiit (a.addPastCourse codeA grade)).getStartingYear =
        (IStudent.iiit a).getStartingYear) ∧
    ((IStudent.iit (b.addPastCourse codeB grade)).getNameStr = (IStudent.iit b).getNameStr ∧
      (IStudent.iit (b.addPastCourse codeB grade)).getRollStr = (IStudent.iit b).getRollStr ∧
      (IStudent.iit (b.addPastCourse codeB grade)).getBranchStr =
        (IStudent.iit b).getBranchStr ∧
      (IStudent.iit (b.addPastCourse codeB grade)).getStartingYear =
        (IStudent.iit b).getStartingYear) ∧
    s.forEachPastCourse (fun acc course g => acc ++ [(course, g)]) s.visited =
      s.visited ++ s.visited := by
  refine ⟨⟨?_, ?_⟩, ⟨rfl, rfl, rfl, rfl⟩, ⟨rfl, rfl, rfl, rfl⟩, ?_⟩
  · simp only [IStudent.visited, IStudent.forEachPastCourse,
      Student.forEachPastCourse_addPastCourse]
  · simp only [IStudent.visited, IStudent.forEachPastCourse,
      Student.forEachPastCourse_addPastCourse]
  · rw [IStudent.forEachPastCourse_eq_foldl, IStudent.visited_eq_pastEntries]
    have h := foldl_record (fun e : String × Int => (e.1, e.2)) s.pastEntries s.pastEntries
    simpa using h

/-! ## The by-name comparator on a collection with a null slot -/

/-- Claim C19 fails on the code: on the collection `["b", null, "a"]` the
by-name comparator orders 0 before 1 and 1 before 2 by position, yet it does
not order 0 before 2 and does order 2 before 0 by name; it is not
transitive. -/
theorem compByName_not_transitive :
    compByName nullMiddle 0 1 = true ∧ compByName nullMiddle 1 2 = true ∧
      compByName nullMiddle 0 2 = false ∧ compByName nullMiddle 2 0 = true := by
  decide

/-! ## Past-course sub-entries -/

/-- Claim C20 fails on the code: the parser keeps sub-entries that are not
well-formed.  In the row `IIIT,A,1,CSE,2025,,X:9abc;Y:7:; OOPD : 8 ;Z:x;:5`
only ` OOPD : 8 ` is well-formed, yet the record also stores (X, 9), read
from `9abc`, and (Y, 7), read from `Y:7:`; in the integer-variant row
`IIT,B,8,EE,2024,,12x:9;13:8` only `13:8` is well-formed, yet the record also
stores (12, 9).  Both rows are accepted, as the claim says. -/
theorem parseStudentRecord_keeps_malformed :
    ((parseStudentRecord
          (splitString "IIIT,A,1,CSE,2025,,X:9abc;Y:7:; OOPD : 8 ;Z:x;:5" ',')).map
          IStudent.pastEntries = some [("X", 9), ("Y", 7), ("OOPD", 8)] ∧
        wellFormedEntries false "X:9abc;Y:7:; OOPD : 8 ;Z:x;:5" = [("OOPD", 8)]) ∧
      ((parseStudentRecord (splitString "IIT,B,8,EE,2024,,12x:9;13:8" ',')).map
          IStudent.pastEntries = some [("12", 9), ("13", 8)] ∧
        wellFormedEntries true "12x:9;13:8" = [("13", 8)]) := by
  decide

/-! ## Starting year and trailing comma -/

/-- Claim C21 fails on the code: rows whose starting-year field is "-5", "+7"
or "2020x" are accepted.  `std::stoul` takes a sign and stops at the first
character that is not a digit, so the records are stored with the years
4294967291, 7 and 2020, and the loader keeps all three lines. -/
theorem parseStudentRecord_accepts_bad_year :
    parseStudentRecord (splitString "IIIT,A,1,CSE,-5,,X:9" ',') =
        some (.iiit ((Student.new "A" "1" "CSE" 4294967291).addPastCourse "X" 9)) ∧
      parseStudentRecord (splitString "IIIT,A,1,CSE,+7,,X:9" ',') =
        some (.iiit ((Student.new "A" "1" "CSE" 7).addPastCourse "X" 9)) ∧
      parseStudentRecord (splitString "IIIT,A,1,CSE,2020x,,X:9" ',') =
        some (.iiit ((Student.new "A" "1" "CSE" 2020).addPastCourse "X" 9)) ∧
      (loadStudentsFromCSV (some ["hdr", "IIIT,A,1,CSE,-5,,X:9", "IIIT,A,1,CSE,+7,,X:9",
        "IIIT,A,1,CSE,2020x,,X:9"])).map List.length = some 3 := by
  decide

/-- Claim C23 fails on the code: the line `IIIT,A,1,CSE,2025,X,` ends in a
comma, `splitString` returns only its first 6 fields, `parseStudentRecord`
throws for want of columns and the loader skips the line.  The same row with
a blank as last field is split into 7 fields and loaded without past
courses. -/
theorem trailing_comma_line_skipped :
    splitString "IIIT,A,1,CSE,2025,X," ',' = ["IIIT", "A", "1", "CSE", "2025", "X"] ∧
      parseStudentRecord (splitString "IIIT,A,1,CSE,2025,X," ',') = none ∧
      loadStudentsFromCSV (some ["hdr", "IIIT,A,1,CSE,2025,X,"]) = some [] ∧
      loadStudentsFromCSV (some ["hdr", "IIIT,A,1,CSE,2025,X, "]) =
        some [some (.iiit ((Student.new "A" "1" "CSE" 2025).addCurrentCourse "X"))] := by
  decide

/-! ## Array bounds in the course index -/

theorem CourseMap.update_const (m : CourseMap) (k : String) (f : CourseIndex → CourseIndex) :
    (m.update k fun _ => f ((m.find k).getD CourseIndex.empty)) = m.update k f := by
  induction m with
  | nil => simp [CourseMap.update, CourseMap.find]
  | cons kv rest ih =>
    obtain ⟨k', v⟩ := kv
    by_cases hk : k' = k
    · simp [CourseMap.update, CourseMap.find, hk]
    · simp only [CourseMap.update, CourseMap.find, hk, if_false]
      rw [ih]

theorem CourseMap.length_find_getD (m : CourseMap) (hwf : m.WF) (course : String) :
    ((m.find course).getD CourseIndex.empty).grades.length = 11 := by
  cases hf : m.find course with
  | none => simp [CourseIndex.empty]
  | some ci0 => simpa using hwf course ci0 hf

theorem CourseIndexDB.buildVisitChecked_eq (s : StudentRef) (m : CourseMap) (hwf : m.WF)
    (course : String) (grade : Int) :
    CourseIndexDB.buildVisitChecked s m course grade =
      some (CourseIndexDB.buildVisit s m course grade) := by
  unfold CourseIndexDB.buildVisitChecked CourseIndexDB.buildVisit
  split_ifs with hr
  · rfl
  · have hlen := CourseMap.length_find_getD m hwf course
    have h0 : ¬ grade < 0 := by omega
    have h1 : grade.toNat < 11 := by omega
    simp only [CourseIndex.pushBackChecked, h0, if_false, hlen, h1, if_true, Option.map_some']
    rw [CourseMap.update_const m course fun ci => ci.pushBack grade.toNat s]

theorem CourseIndexDB.foldl_buildVisitChecked (s : StudentRef) (es : List (String × Int))
    (m : CourseMap) (hwf : m.WF) :
    es.foldl (fun acc e => acc.bind fun m => CourseIndexDB.buildVisitChecked s m e.1 e.2)
        (some m) =
      some (es.foldl (fun acc e => CourseIndexDB.buildVisit s acc e.1 e.2) m) := by
  induction es generalizing m with
  | nil => rfl
  | cons e rest ih =>
    rw [List.foldl_cons, List.foldl_cons, Option.some_bind,
      CourseIndexDB.buildVisitChecked_eq s m hwf]
    exact ih _ (CourseIndexDB.buildVisit_wf s m e.1 e.2 hwf)

theorem CourseIndexDB.buildLoopChecked_eq (students : List IStudentPtr) (i : Nat)
    (m : CourseMap) (hwf : m.WF) :
    CourseIndexDB.buildLoopChecked i (some m) students =
      some (CourseIndexDB.buildLoop i m students) := by
  induction students generalizing i m with
  | nil => rfl
  | cons p rest ih =>
    cases p with
    | none => exact ih (i + 1) m hwf
    | some s =>
      rw [CourseIndexDB.buildLoopChecked, CourseIndexDB.buildLoop,
        IStudent.forEachPastCourse_eq_foldl, IStudent.forEachPastCourse_eq_foldl,
        CourseIndexDB.foldl_buildVisitChecked i s.pastEntries m hwf]
      exact ih (i + 1) _ (CourseIndexDB.foldl_buildVisit i s.pastEntries m hwf).1

theorem CourseIndex.bucketChecked_eq (ci : CourseIndex) (hlen : ci.grades.length = 11)
    (g : Nat) (hg : g ≤ 10) : ci.bucketChecked (g : Int) = some (ci.bucket g) := by
  have h0 : ¬ ((g : Int) < 0) := by omega
  have hlt : g < ci.grades.length := by omega
  simp only [CourseIndex.bucketChecked, h0, if_false, Int.toNat_ofNat, CourseIndex.bucket,
    List.getD_eq_getElem?_getD, List.getElem?_eq_getElem hlt, Option.getD_some]

theorem foldl_bucketChecked (ci : CourseIndex) (hlen : ci.grades.length = 11) (l : List Nat)
    (hl : ∀ g ∈ l, g ≤ 10) (init : List StudentRef) :
    l.foldl (fun (result : Option (List StudentRef)) (g : Nat) =>
        result.bind fun r => (ci.bucketChecked (Int.ofNat g)).map fun b => r ++ b)
        (some init) =
      some (l.foldl (fun result g => result ++ ci.bucket g) init) := by
  induction l generalizing init with
  | nil => rfl
  | cons g rest ih =>
    have hb : ci.bucketChecked (Int.ofNat g) = some (ci.bucket g) :=
      CourseIndex.bucketChecked_eq ci hlen g (hl g (List.mem_cons_self _ _))
    rw [List.foldl_cons, List.foldl_cons, Option.some_bind, hb, Option.map_some']
    exact ih (fun x hx => hl x (List.mem_cons_of_mem _ hx)) _

theorem CourseIndexDB.queryAtLeastChecked_eq (db : CourseIndexDB) (hwf : db.index_.WF)
    (c : String) (t : Int) :
    db.queryAtLeastChecked c t = some (db.queryAtLeast c t) := by
  unfold CourseIndexDB.queryAtLeastChecked CourseIndexDB.queryAtLeast
  cases hf : db.index_.find c with
  | none => rfl
  | some ci =>
    simp only
    apply foldl_bucketChecked ci (hwf c ci hf)
    intro g hg
    rw [List.mem_range'_1] at hg
    omega

theorem CourseIndexDB.build_wf (db : CourseIndexDB) (students : List IStudentPtr) :
    (db.build students).index_.WF :=
  (CourseIndexDB.buildLoop_spec students 0 [] CourseMap.WF_nil).1

/-- Claim C22: no index or query operation fails.  For every collection
(arbitrary integer grades, absent slots), `build` with every bucket access
checked against the array completes and gives the index of `build`; for every
course text and every integer threshold, `queryAtLeast` with checked access
on a built index, and on an index never built, completes and returns the
sequence of `queryAtLeast`.  A checked access at position 11 or -1 does
fail, so every position used lies in 0..10. -/
theorem index_access_in_bounds (db : CourseIndexDB) (students : List IStudentPtr)
    (c : String) (t : Int) :
    db.buildChecked students = some (db.build students) ∧
      (db.build students).queryAtLeastChecked c t =
        some ((db.build students).queryAtLeast c t) ∧
      CourseIndexDB.fresh.queryAtLeastChecked c t = some [] ∧
      (CourseIndex.empty.bucketChecked 11 = none ∧ CourseIndex.empty.bucketChecked (-1) = none ∧
        CourseIndex.empty.pushBackChecked 11 0 = none ∧
        CourseIndex.empty.pushBackChecked (-1) 0 = none) ∧
      CourseIndexDB.fresh.buildChecked wildGrades = some (CourseIndexDB.fresh.build wildGrades) ∧
      (CourseIndexDB.fresh.build wildGrades).queryAtLeastChecked "X" (-7) = some [0] := by
  refine ⟨?_, CourseIndexDB.queryAtLeastChecked_eq _ (CourseIndexDB.build_wf db students) c t,
    rfl, by decide, by decide, by decide⟩
  simp only [CourseIndexDB.buildChecked, CourseIndexDB.build, CourseIndexDB.clear,
    CourseIndexDB.buildLoopChecked_eq students 0 [] CourseMap.WF_nil, Option.map_some']

end ERP
